import Mathlib

/-!
Shallow embedding of the camus concordance-archive manager (Go) in Lean 4.

Conventions of the embedding:
* Go `time.Time` values are modelled as `Int` Unix seconds; the Go zero time is
  modelled as `0` (`IsZero t ↔ t = 0`), `Before` is `<`, `After` is `>`.
  `time.Now()` is passed in explicitly as a `now : Int` parameter.
* Go `int`/`int64` are `Int` (counters that only grow are sometimes `Nat`).
* A Go function that can return an `error` returns `Except String _` or the
  `GoResult` type below; a Go `panic` is the distinguished `GoResult.panicked`
  outcome (the process dies, so no state is carried along).
* Store side effects (MySQL table, Redis keys) are explicit state threaded
  through the functions; SQL statements are modelled by their effect on the
  table contents, in source order.
* `encoding/json` is external to the repository.  Decoding of opaque payload
  strings is modelled by an environment `JsonDecoder`: a finite partial map
  from raw payload strings to their parsed top-level objects; strings outside
  the map fail to decode, exactly like `json.Unmarshal` returning an error.
-/

namespace Camus

/-- A JSON value, the model of Go `any` produced by `json.Unmarshal`. -/
inductive JVal where
  | jstr : String → JVal
  | jnum : Int → JVal
  | jbool : Bool → JVal
  | jnull : JVal
  | jarr : List JVal → JVal
  | jobj : List (String × JVal) → JVal

/-- Model of `cncdb.GeneralDataRecord` (`map[string]any`): the decoded
top-level object of a payload. -/
abbrev GeneralDataRecord := List (String × JVal)

/-- The JSON decoding environment: raw payload string ↦ decoded object.
Payload strings absent from the environment fail to decode
(`json.Unmarshal` error). -/
abbrev JsonDecoder := List (String × GeneralDataRecord)

/-- Go type assertion `[]any` → all-strings extraction used by
`GetQuery`/`GetCorpora`: any non-string element makes the whole
extraction return the empty list. -/
def allStrings : List JVal → Option (List String)
  | [] => some []
  | JVal.jstr s :: rest => (allStrings rest).map (fun xs => s :: xs)
  | _ => none

/-- `cncdb.GeneralDataRecord.GetQuery` (src/unnamed/part_015): field `q`
as a string list, empty on any missing key or failed type assertion. -/
def getQuery (rec : GeneralDataRecord) : List String :=
  match List.lookup "q" rec with
  | some (JVal.jarr xs) => (allStrings xs).getD []
  | _ => []

/-- `cncdb.GeneralDataRecord.GetCorpora` (src/unnamed/part_015): field
`corpora` as a string list, empty on any missing key or failed assertion. -/
def getCorpora (rec : GeneralDataRecord) : List String :=
  match List.lookup "corpora" rec with
  | some (JVal.jarr xs) => (allStrings xs).getD []
  | _ => []

/-- `cncdb.GeneralDataRecord.GetSubcorpus` (src/unnamed/part_015): field
`usesubcorp` as a string, `""` on a missing key or failed assertion. -/
def getSubcorpus (rec : GeneralDataRecord) : String :=
  match List.lookup "usesubcorp" rec with
  | some (JVal.jstr s) => s
  | _ => ""

/-- `cncdb.QueryArchRec` (src/unnamed/part_015): one archive row of
`kontext_conc_persistence`. -/
structure QueryArchRec where
  id : String
  data : String
  created : Int
  numAccess : Int
  lastAccess : Int
  permanent : Int
deriving DecidableEq, Repr

/-- `QueryArchRec.FetchData` (src/unnamed/part_015): parse the raw JSON
payload; decoding is the `JsonDecoder` environment lookup. -/
def fetchData (env : JsonDecoder) (rec : QueryArchRec) : Except String GeneralDataRecord :=
  match List.lookup rec.data env with
  | some g => Except.ok g
  | none => Except.error "failed to fetch ArchRecord data"

/-- Outcome of a Go call that may return an error or panic. -/
inductive GoResult (α : Type) where
  | ok : α → GoResult α
  | fail : String → GoResult α
  | panicked : String → GoResult α
deriving Repr, DecidableEq

/-- `GoResult.isPanic`: whether the call ended in a Go panic. -/
def GoResult.isPanic {α : Type} : GoResult α → Bool
  | GoResult.panicked _ => true
  | _ => false

/-- `cncdb.MergeRecords` (src/unnamed/part_012 lines 36-56).  Go panics on an
empty `recs` slice; the panic is the `none` result.  `ans` starts from
`newRec` (so `ans.Data = newRec.Data`), `NumAccess` is incremented once and
`LastAccess` is overwritten with `time.Now()` (parameter `now`) before the
fold over the existing records. -/
def mergeStep (ans r : QueryArchRec) : QueryArchRec :=
  { ans with
    numAccess := ans.numAccess + r.numAccess
    created := if r.created < ans.created ∧ r.created ≠ 0 then r.created else ans.created
    lastAccess := if r.lastAccess > ans.lastAccess then r.lastAccess else ans.lastAccess
    permanent := if r.permanent > ans.permanent then r.permanent else ans.permanent }

def mergeRecords (recs : List QueryArchRec) (newRec : QueryArchRec) (now : Int) :
    Option QueryArchRec :=
  match recs with
  | [] => none
  | _ =>
    some (recs.foldl mergeStep
      { newRec with numAccess := newRec.numAccess + 1, lastAccess := now })

/-- The archive table `kontext_conc_persistence`, as the list of its rows. -/
abbrev ArchTable := List QueryArchRec

/-- `MySQLConcArch.LoadRecordsByID` (src/cncdb/mysql.go): all rows with the
given id, in table order (the SQL has no ORDER BY). -/
def loadRecordsByID (table : ArchTable) (concID : String) : List QueryArchRec :=
  List.filter (fun r => r.id = concID) table

/-- `MySQLConcArch.RemoveRecordsByID` (src/cncdb/mysql.go): DELETE of all rows
with the given id. -/
def removeRecordsByID (table : ArchTable) (concID : String) : ArchTable :=
  List.filter (fun r => ¬ r.id = concID) table

/-- `MySQLConcArch.InsertRecord` (src/cncdb/mysql.go).  `failingInserts` is
the set of ids on which the INSERT statement errors (connection failure,
duplicate-key collision, ...): the model of the store's failure modes. -/
def insertRecord (failingInserts : List String) (table : ArchTable) (rec : QueryArchRec) :
    Except String ArchTable :=
  if rec.id ∈ failingInserts then Except.error "failed to insert archive record"
  else Except.ok (table ++ [rec])

/-- `MySQLConcArch.ContainsRecord` (src/cncdb/mysql.go). -/
def containsRecord (table : ArchTable) (concID : String) : Bool :=
  List.any table (fun r => r.id = concID)

/-- `MySQLConcArch.UpdateRecordStatus` (src/cncdb/mysql.go): set `permanent`
of every row with the id; the zero-rows-affected error of the source is
ignored by all callers in the claims, so only the table effect is modelled. -/
def updateRecordStatus (table : ArchTable) (concID : String) (status : Int) : ArchTable :=
  List.map (fun r => if r.id = concID then { r with permanent := status } else r) table

/-- Stable insertion of `x` into a list sorted by `le`. -/
def insertLe {α : Type} (le : α → α → Bool) (x : α) : List α → List α
  | [] => [x]
  | y :: ys => if le x y then x :: y :: ys else y :: insertLe le x ys

/-- Stable insertion sort; the model of an SQL ORDER BY (whose order on ties
is unspecified anyway). -/
def sortLe {α : Type} (le : α → α → Bool) : List α → List α
  | [] => []
  | x :: xs => insertLe le x (sortLe le xs)

/-- `MySQLConcArch.LoadRecordsFromDate` (src/cncdb/mysql.go): rows with
`created ≥ fromDate`, ordered by `created`, at most `maxItems`. -/
def loadRecordsFromDate (table : ArchTable) (fromDate : Int) (maxItems : Nat) :
    List QueryArchRec :=
  List.take maxItems
    (sortLe (fun a b => a.created ≤ b.created)
      (List.filter (fun r => fromDate ≤ r.created) table))

/-- `MySQLConcArch.DeduplicateInArchive` (src/cncdb/mysql.go lines 193-209):
remove all rows with `rec.ID`, merge, insert the merged row.  The merge panic
(empty `curr`) happens after the removal; the process dies, so `panicked`
carries no state. -/
def dedupInArchive (failingInserts : List String) (table : ArchTable)
    (curr : List QueryArchRec) (rec : QueryArchRec) (now : Int) :
    GoResult (QueryArchRec × ArchTable) :=
  let table1 := removeRecordsByID table rec.id
  match mergeRecords curr rec now with
  | none => GoResult.panicked "cannot merge empty slice of ArchRecords"
  | some ans =>
    match insertRecord failingInserts table1 ans with
    | Except.error e => GoResult.fail e
    | Except.ok table2 => GoResult.ok (ans, table2)

/-- Model of the external `bits-and-blooms/bloom` Bloom filter used by the
Deduplicator (src/archiver/deduplicator.go), by its contract: a family of
hash functions and the set of bit positions currently set.  The concrete
library fixes the family (murmur-based) and reduces positions mod the filter
size; the model is parametric in the family, which subsumes that choice. -/
structure BloomFilter where
  hashes : List (String → Nat)
  bits : List Nat

/-- `bloom.BloomFilter.AddString`: set the bit at every hash position. -/
def BloomFilter.addString (f : BloomFilter) (s : String) : BloomFilter :=
  { f with bits := f.bits ++ f.hashes.map (fun h => h s) }

/-- `bloom.BloomFilter.TestString`: all hash positions set. -/
def BloomFilter.testString (f : BloomFilter) (s : String) : Bool :=
  f.hashes.all (fun h => f.bits.contains (h s))

/-- `archiver.Deduplicator` (src/archiver/deduplicator.go): the mutex is a
concurrency artefact and is not part of the sequential model. -/
structure Deduplicator where
  knownIDs : BloomFilter

/-- `Deduplicator.Add`. -/
def Deduplicator.add (dd : Deduplicator) (concID : String) : Deduplicator :=
  { dd with knownIDs := dd.knownIDs.addString concID }

/-- `Deduplicator.TestRecord`. -/
def Deduplicator.testRecord (dd : Deduplicator) (concID : String) : Bool :=
  dd.knownIDs.testString concID

/-- `Deduplicator.StoreToDisk` (src/archiver/deduplicator.go lines 44-57):
`bloom.BloomFilter.WriteTo` serializes the whole filter; the file content is
modelled as the serialized filter itself (the binary codec is the external
library's, specified as a faithful round trip). -/
def Deduplicator.storeToDisk (dd : Deduplicator) : BloomFilter :=
  dd.knownIDs

/-- `Deduplicator.LoadFromDisk` (src/archiver/deduplicator.go lines 63-76):
`bloom.BloomFilter.ReadFrom` replaces the filter contents with the file
contents. -/
def Deduplicator.loadFromDisk (dd : Deduplicator) (file : BloomFilter) : Deduplicator :=
  { dd with knownIDs := file }

/-- The grouping `queryTest := map[string][]cncdb.RawRecord` of
`Deduplicator.TestAndSolve` (src/archiver/deduplicator.go lines 139-146):
records grouped by their raw `Data` payload.  Go map iteration order is
unspecified; the model keeps groups in first-occurrence order, which agrees
with the source whenever the largest group is unique. -/
def groupByData (recs : List QueryArchRec) : List (String × List QueryArchRec) :=
  recs.foldl
    (fun groups r =>
      if (List.lookup r.data groups).isSome
      then groups.map (fun g => if g.1 = r.data then (g.1, g.2 ++ [r]) else g)
      else groups ++ [(r.data, [r])])
    []

/-- The `bestRecKey` selection loop of `TestAndSolve` (lines 147-154): the
first group (in iteration order) whose size strictly exceeds all earlier
ones. -/
def pickBest (groups : List (String × List QueryArchRec)) : String × Nat :=
  groups.foldl (fun best g => if g.2.length > best.2 then (g.1, g.2.length) else best) ("", 0)

/-- `Deduplicator.TestAndSolve` (src/archiver/deduplicator.go lines 121-168):
membership test, full load by id, grouping by payload, and
`DeduplicateInArchive` on the largest group.  Returns the `(matched, …)` pair
together with the updated archive table. -/
def testAndSolve (dd : Deduplicator) (failingInserts : List String) (table : ArchTable)
    (newRec : QueryArchRec) (now : Int) : GoResult (Bool × ArchTable) :=
  if ¬ dd.testRecord newRec.id then GoResult.ok (false, table)
  else
    let recs := loadRecordsByID table newRec.id
    if recs.isEmpty then GoResult.ok (false, table)
    else
      let queryTest := groupByData recs
      let bestRecKey := (pickBest queryTest).1
      match dedupInArchive failingInserts table ((List.lookup bestRecKey queryTest).getD []) newRec now with
      | GoResult.ok (_, table2) => GoResult.ok (true, table2)
      | GoResult.fail e => GoResult.fail e
      | GoResult.panicked m => GoResult.panicked m

/-- Keys of the `queryVariants` map of `cncdb.ValidateQueryInstances`
(src/unnamed/part_012 lines 58-80).  `uuid.New()` produces a fresh random
UUID; the model makes UUID keys a separate constructor indexed by a fresh
counter, encoding the (probability-1) fact that a random UUID collides
neither with another UUID nor with a joined query string. -/
inductive VariantKey where
  | uuid : Nat → VariantKey
  | qjoin : String → VariantKey
deriving DecidableEq

/-- Increment a key's counter in the `queryVariants` map (Go `m[k]++`),
keys kept in first-insertion order. -/
def bumpKey (m : List (VariantKey × Nat)) (k : VariantKey) : List (VariantKey × Nat) :=
  if (List.lookup k m).isSome
  then m.map (fun e => if e.1 = k then (e.1, e.2 + 1) else e)
  else m ++ [(k, 1)]

/-- The loop body of `cncdb.ValidateQueryInstances` for one variant: a
failed `FetchData` has no `continue` in the source, so the failed variant is
counted under a fresh UUID key *and*, since `data` is then the empty record,
under the joined-query key of the empty record (`""`) as well. -/
def validateStep (env : JsonDecoder) (st : List (VariantKey × Nat) × Nat)
    (vr : QueryArchRec) : List (VariantKey × Nat) × Nat :=
  match fetchData env vr with
  | Except.error _ =>
    let m1 := bumpKey st.1 (VariantKey.uuid st.2)
    (bumpKey m1 (VariantKey.qjoin (String.intercalate " " (getQuery []))), st.2 + 1)
  | Except.ok data =>
    (bumpKey st.1 (VariantKey.qjoin (String.intercalate " " (getQuery data))), st.2)

/-- `cncdb.ValidateQueryInstances` (src/unnamed/part_012 lines 58-80).
Returns `none` for `nil` and `some n` for the inconsistency error reporting
`n` found variants. -/
def validateQueryInstances (env : JsonDecoder) (variants : List QueryArchRec) : Option Nat :=
  if variants.length < 2 then none
  else
    let queryVariants := (variants.foldl (validateStep env) ([], 0)).1
    if queryVariants.length > 1 then some queryVariants.length else none

/-- `cncdb.HistoryRecord` (src/unnamed/part_015): `Name` is a Go string that
is `""` for a SQL NULL (`sql.NullString.String` semantics of the scanning
code); `rec` is the attached payload pointer. -/
structure HistoryRecord where
  queryId : String
  userId : Int
  created : Int
  name : String
  recPayload : Option QueryArchRec := none
deriving DecidableEq, Repr

/-- `HistoryRecord.CreateIndexID` (src/unnamed/part_015): `"%d/%d/%s"`. -/
def HistoryRecord.createIndexID (qh : HistoryRecord) : String :=
  toString qh.userId ++ "/" ++ toString qh.created ++ "/" ++ qh.queryId

/-- `archiver.queueRecord` (src/unnamed/part_025): a decoded queue entry.
`type` is the raw string of `QueueRecordType` (`"archive"`, `"history"`, or
`""` for legacy bare-string entries). -/
structure QueueRecord where
  type : String
  key : String
  explicit : Bool
  userId : Int
  created : Int
  name : String
deriving DecidableEq, Repr

/-- Whether the first list is a prefix of the second. -/
def listIsPrefixOf {α : Type} [DecidableEq α] : List α → List α → Bool
  | [], _ => true
  | _ :: _, [] => false
  | a :: as, b :: bs => a = b && listIsPrefixOf as bs

/-- Characters before the first occurrence of `pat` (Go
`strings.Split(s, pat)[0]` on the remainder). -/
def takeUntilSublist (pat : List Char) : List Char → List Char
  | [] => []
  | c :: cs => if listIsPrefixOf pat (c :: cs) then [] else c :: takeUntilSublist pat cs

/-- Go `strings.Contains`. -/
def hasSublist (pat : List Char) : List Char → Bool
  | [] => pat.isEmpty
  | c :: cs => listIsPrefixOf pat (c :: cs) || hasSublist pat cs

/-- Go `strings.Contains` on strings. -/
def containsSubstr (s pat : String) : Bool :=
  hasSublist pat.data s.data

/-- `queueRecord.KeyCode` (src/unnamed/part_025): when the key carries a
leading `concordance:` prefix, the segment after it up to any further
occurrence of the separator (Go `strings.Split(key, "concordance:")[1]`). -/
def QueueRecord.keyCode (qr : QueueRecord) : String :=
  if listIsPrefixOf "concordance:".data qr.key.data
  then String.mk (takeUntilSublist "concordance:".data (qr.key.data.drop 12))
  else qr.key

/-- `reporting.OpStats`, the per-tick counters of ArchKeeper. -/
structure OpStats where
  numInserted : Nat := 0
  numMerged : Nat := 0
  numErrors : Nat := 0
  numFetched : Nat := 0
deriving DecidableEq, Repr

/-- `cncdb.CorpBoundRawRecord` (src/unnamed/part_015), as emitted on the
stats stream. -/
structure CorpBoundRawRecord where
  rawRecord : QueryArchRec
  corpname : String
  corpusSize : Int
deriving DecidableEq, Repr

/-- The state visible to ArchKeeper: the Redis queue/payload keys, the
decoding environments, the archive table, the Deduplicator, and the corpus
size cache.  `failingInserts` is the set of archive ids on which the SQL
INSERT errors, modelling the store's failure modes. -/
structure ArchWorld where
  queue : List String
  failedQueue : List QueueRecord := []
  failedRecords : List (String × String) := []
  concStore : List (String × String)
  jsonEnv : JsonDecoder
  queueEnv : List (String × QueueRecord) := []
  archive : ArchTable
  failingInserts : List String := []
  dedup : Deduplicator
  corpSizes : List (String × Int) := []
  dbCorpSizes : List (String × Int) := []

/-- `RedisAdapter.NextNArchItems` (src/unnamed/part_025 lines 182-209):
pipelined `LRANGE key -n -1` + `LTRIM key 0 -n-1` (take the `n` tail
entries, atomically), then decode back-to-front; entries containing the
substring `"key"` are JSON-decoded through the queue-entry environment
(a decode failure fails the whole call), the rest become bare
`{Key: item}` records. -/
def decodeQueueItems (queueEnv : List (String × QueueRecord)) :
    List String → GoResult (List QueueRecord)
  | [] => GoResult.ok []
  | item :: rest =>
    let head :=
      if containsSubstr item "\"key\""
      then match List.lookup item queueEnv with
        | some v => GoResult.ok v
        | none => GoResult.fail "failed to decode queue item"
      else GoResult.ok { type := "", key := item, explicit := false,
                         userId := 0, created := 0, name := "" }
    match head with
    | GoResult.ok v =>
      match decodeQueueItems queueEnv rest with
      | GoResult.ok vs => GoResult.ok (v :: vs)
      | GoResult.fail e => GoResult.fail e
      | GoResult.panicked m => GoResult.panicked m
    | GoResult.fail e => GoResult.fail e
    | GoResult.panicked m => GoResult.panicked m

/-- `RedisAdapter.NextNArchItems`: returns the decoded chunk together with
the trimmed queue. -/
def nextNArchItems (queue : List String) (queueEnv : List (String × QueueRecord)) (n : Nat) :
    GoResult (List QueueRecord × List String) :=
  let keep := queue.length - n
  let fetched := queue.drop keep
  let rest := queue.take keep
  match decodeQueueItems queueEnv fetched.reverse with
  | GoResult.ok items => GoResult.ok (items, rest)
  | GoResult.fail e => GoResult.fail e
  | GoResult.panicked m => GoResult.panicked m

/-- `RedisAdapter.AddError` (src/unnamed/part_025 lines 211-227): LPUSH the
serialized entry onto the failure queue and, when a payload is available,
HSET it under the entry key.  (The source issues the HSET against the same
Redis key as the list, which a real Redis would reject with WRONGTYPE; the
caller only logs that error, so the model records the intended hash write.) -/
def addError (w : ArchWorld) (item : QueueRecord) (rec : Option QueryArchRec) : ArchWorld :=
  { w with
    failedQueue := item :: w.failedQueue
    failedRecords := match rec with
      | some r => (item.key, r.data) :: w.failedRecords
      | none => w.failedRecords }

/-- `RedisAdapter.GetConcRecord` (src/unnamed/part_025 lines 236-248): fetch
the payload under key `concordance:<id>`; only `ID` and `Data` are
populated. -/
def getConcRecord (w : ArchWorld) (id : String) : Except String QueryArchRec :=
  match List.lookup id w.concStore with
  | some d => Except.ok { id := id, data := d, created := 0, numAccess := 0,
                          lastAccess := 0, permanent := 0 }
  | none => Except.error "record not found"

/-- `ArchKeeper.getCorpusSize` (src/unnamed/part_020 lines 113-124):
process-local cache in front of the store's corpus-size accessor; a corpus
unknown to the store is a query error. -/
def getCorpusSize (w : ArchWorld) (corpusID : String) : Except String (Int × ArchWorld) :=
  match List.lookup corpusID w.corpSizes with
  | some cs => Except.ok (cs, w)
  | none =>
    match List.lookup corpusID w.dbCorpSizes with
    | some cs => Except.ok (cs, { w with corpSizes := w.corpSizes ++ [(corpusID, cs)] })
    | none => Except.error "failed to get corpus size"

/-- `ArchKeeper.handleImplicitReq` (src/unnamed/part_020 lines 128-162).
Note the source: when `InsertRecord` fails, the entry is pushed to the
failure queue but the code falls through to `dedup.Add` and
`NumInserted++` — the error counter is *not* incremented on that path. -/
def handleImplicitReq (w : ArchWorld) (rec : QueryArchRec) (item : QueueRecord)
    (stats : OpStats) (now : Int) : GoResult (Bool × ArchWorld × OpStats) :=
  match testAndSolve w.dedup w.failingInserts w.archive rec now with
  | GoResult.panicked m => GoResult.panicked m
  | GoResult.fail _ =>
    GoResult.ok (false, addError w item (some rec),
      { stats with numErrors := stats.numErrors + 1 })
  | GoResult.ok (true, table2) =>
    GoResult.ok (true, { w with archive := table2 },
      { stats with numMerged := stats.numMerged + 1 })
  | GoResult.ok (false, _) =>
    let w1 := match insertRecord w.failingInserts w.archive rec with
      | Except.error _ => addError w item (some rec)
      | Except.ok t => { w with archive := t }
    GoResult.ok (false, { w1 with dedup := w1.dedup.add rec.id },
      { stats with numInserted := stats.numInserted + 1 })

/-- `ArchKeeper.handleExplicitReq` (src/unnamed/part_020 lines 164-188):
insert only when the id is not yet archived; insert failure increments the
error counter (unlike the implicit path). -/
def handleExplicitReq (w : ArchWorld) (rec : QueryArchRec) (stats : OpStats) :
    ArchWorld × OpStats :=
  if ¬ containsRecord w.archive rec.id then
    match insertRecord w.failingInserts w.archive rec with
    | Except.error _ =>
      ({ w with dedup := w.dedup.add rec.id },
       { stats with numErrors := stats.numErrors + 1 })
    | Except.ok t =>
      ({ w with archive := t, dedup := w.dedup.add rec.id },
       { stats with numInserted := stats.numInserted + 1 })
  else (w, stats)

/-- Result of one ArchKeeper tick: final state, the tick's counters, and the
messages emitted on the history-indexer and stats fan-out channels. -/
structure CheckOutcome where
  world : ArchWorld
  stats : OpStats
  toIndex : List HistoryRecord
  toStats : List CorpBoundRawRecord

/-- The per-item loop of `ArchKeeper.performCheck`
(src/unnamed/part_020 lines 201-261): fetch the payload from Redis (miss →
failure queue + error counter + continue), stamp `Created = now`, dispatch
on the entry type; archive entries additionally emit a stats-stream message
(skipped, with `continue`, when the payload does not decode or the corpus
size lookup fails); history entries emit a `HistoryRecord` on the indexer
stream; unknown types do nothing. -/
def processItems (now : Int) :
    List QueueRecord → ArchWorld → OpStats → List HistoryRecord →
    List CorpBoundRawRecord → GoResult CheckOutcome
  | [], w, stats, toIndex, toStats =>
    GoResult.ok { world := w, stats := stats, toIndex := toIndex, toStats := toStats }
  | item :: rest, w, stats, toIndex, toStats =>
    let stats := { stats with numFetched := stats.numFetched + 1 }
    match getConcRecord w item.keyCode with
    | Except.error _ =>
      processItems now rest (addError w item none)
        { stats with numErrors := stats.numErrors + 1 } toIndex toStats
    | Except.ok rec0 =>
      let rec1 := { rec0 with created := now }
      if item.type = "archive" ∨ item.type = "" then
        let handled : GoResult (ArchWorld × OpStats) :=
          if item.explicit then GoResult.ok (handleExplicitReq w rec1 stats)
          else match handleImplicitReq w rec1 item stats now with
            | GoResult.ok (_, w2, st2) => GoResult.ok (w2, st2)
            | GoResult.fail e => GoResult.fail e
            | GoResult.panicked m => GoResult.panicked m
        match handled with
        | GoResult.fail e => GoResult.fail e
        | GoResult.panicked m => GoResult.panicked m
        | GoResult.ok (w2, st2) =>
          match fetchData w2.jsonEnv rec1 with
          | Except.error _ => processItems now rest w2 st2 toIndex toStats
          | Except.ok fdata =>
            let corp := (getCorpora fdata).headD ""
            match getCorpusSize w2 corp with
            | Except.error _ => processItems now rest w2 st2 toIndex toStats
            | Except.ok (corpSize, w3) =>
              processItems now rest w3 st2 toIndex
                (toStats ++ [{ rawRecord := rec1, corpname := corp, corpusSize := corpSize }])
      else if item.type = "history" then
        processItems now rest w stats
          (toIndex ++ [{ queryId := item.key, userId := item.userId,
                         created := item.created, name := item.name, recPayload := some rec1 }])
          toStats
      else
        processItems now rest w stats toIndex toStats

/-- `ArchKeeper.performCheck` (src/unnamed/part_020 lines 190-273): drain at
most `chunk` entries from the queue tail, then run the per-item loop. -/
def performCheck (w : ArchWorld) (chunk : Nat) (now : Int) : GoResult CheckOutcome :=
  match nextNArchItems w.queue w.queueEnv chunk with
  | GoResult.fail e => GoResult.fail e
  | GoResult.panicked m => GoResult.panicked m
  | GoResult.ok (items, queue2) =>
    processItems now items { w with queue := queue2 } {} [] []

/-- One row of the `kontext_query_history` table.  `name` is the nullable
saved-query name; `pendingFrom` is the nullable `pending_deletion_from`
column set by the GC mark phase. -/
structure HistRow where
  userId : Int
  queryId : String
  created : Int
  name : Option String
  pendingFrom : Option Int
deriving DecidableEq, Repr

/-- The query-history table, as the list of its rows. -/
abbrev HistTable := List HistRow

/-- The set of `(user_id, created, query_id)` triples produced by the ranked
subquery of `MySQLQueryHist.MarkOldQueryHistory` (src/cncdb/mysql.go lines
290-316): unnamed rows (`name IS NULL`) ranked per user by `created`
descending, keeping those with row number beyond `numPreserve`.  SQL leaves
the order of `created` ties unspecified; the model uses a stable sort. -/
def markDueTriples (table : HistTable) (numPreserve : Nat) : List (Int × Int × String) :=
  let unnamed := table.filter (fun r => r.name = none)
  ((unnamed.map (fun r => r.userId)).dedup).flatMap
    (fun u =>
      ((sortLe (fun a b => b.created ≤ a.created)
          (unnamed.filter (fun r => r.userId = u))).drop numPreserve).map
        (fun r => (r.userId, r.created, r.queryId)))

/-- The effect of the UPDATE-JOIN of `MarkOldQueryHistory` on a single row:
any row of the table matching one of the due triples (the join is on
`user_id`, `created` and `query_id` only — it does not re-check `name`) gets
`pending_deletion_from = NOW()`. -/
def markRow (table : HistTable) (numPreserve : Nat) (now : Int) (r : HistRow) : HistRow :=
  if (markDueTriples table numPreserve).any
      (fun t => r.userId = t.1 ∧ r.created = t.2.1 ∧ r.queryId = t.2.2)
  then { r with pendingFrom := some now }
  else r

/-- `MySQLQueryHist.MarkOldQueryHistory` (src/cncdb/mysql.go lines 290-316):
the updated table and the number of affected rows. -/
def markOldQueryHistory (table : HistTable) (numPreserve : Nat) (now : Int) :
    HistTable × Nat :=
  (table.map (markRow table numPreserve now),
   (table.filter (fun r => markRow table numPreserve now r ≠ r)).length)

/-- `MySQLQueryHist.GetPendingDeletionHistory` (src/cncdb/mysql.go lines
452-476): rows with a non-NULL `pending_deletion_from`, ordered by it, at
most `maxItems`; the scan turns a NULL `name` into `""`
(`sql.NullString.String`). -/
def getPendingDeletionHistory (table : HistTable) (maxItems : Nat) : List HistoryRecord :=
  ((sortLe (fun a b => a.pendingFrom.getD 0 ≤ b.pendingFrom.getD 0)
      (table.filter (fun r => r.pendingFrom.isSome))).take maxItems).map
    (fun r => { queryId := r.queryId, userId := r.userId, created := r.created,
                name := r.name.getD "" })

/-- `MySQLQueryHist.RemoveQueryHistory` (src/cncdb/mysql.go lines 399-417):
`DELETE … WHERE created = ? AND user_id = ? AND query_id = ? AND name IS
NULL`, erroring when zero rows are affected.  Although the function receives
a `*sql.Tx`, the source executes the DELETE on `ops.db` — the autocommit
connection pool — so the deletion takes effect immediately and is *not*
part of the caller's transaction. -/
def removeQueryHistory (table : HistTable) (created : Int) (userID : Int) (queryID : String) :
    GoResult HistTable :=
  let table2 := table.filter
    (fun r => ¬ (r.created = created ∧ r.userId = userID ∧ r.queryId = queryID ∧ r.name = none))
  if table2.length = table.length
  then GoResult.fail "failed to delete query history item: no match within non-archived items"
  else GoResult.ok table2

/-- `indexer.Indexer.Delete`: a Bleve index document deletion; deleting an
absent document is not an error.  The index is modelled as the list of its
document ids. -/
def indexerDelete (docs : List String) (docID : String) : List String :=
  docs.filter (fun d => ¬ d = docID)

/-- `reporting.QueryHistoryDelStats`, as far as the delete phase fills it. -/
structure QueryHistoryDelStats where
  numDeleted : Nat := 0
  numErrors : Nat := 0
deriving DecidableEq, Repr

/-- The per-record loop of
`GarbageCollector.processDeletionPendingRecords` (src/unnamed/part_017
lines 139-164).  On a `RemoveRecord` failure the source calls
`tx.Rollback()` and returns — but every relational DELETE so far ran on the
autocommit pool connection (see `removeQueryHistory`) and every index
deletion went straight to Bleve, so the rollback restores nothing: the
state reached so far is final. -/
def processPendingLoop : List HistoryRecord → HistTable → List String →
    HistTable × List String × Bool
  | [], table, docs => (table, docs, false)
  | rec :: rest, table, docs =>
    match removeQueryHistory table rec.created rec.userId rec.queryId with
    | GoResult.fail _ => (table, docs, true)
    | GoResult.panicked _ => (table, docs, true)
    | GoResult.ok table2 =>
      processPendingLoop rest table2 (indexerDelete docs rec.createIndexID)

/-- `GarbageCollector.processDeletionPendingRecords` (src/unnamed/part_017
lines 120-173): select up to `maxNumDelete` pending rows ordered by oldest
`pending_deletion_from`, delete each relational row and its index document;
`NumErrors = 1` on any per-record failure (the "rollback" path),
`NumDeleted = len(recs)` on commit. -/
def processDeletionPendingRecords (maxNumDelete : Nat) (table : HistTable)
    (docs : List String) : HistTable × List String × QueryHistoryDelStats :=
  let recs := getPendingDeletionHistory table maxNumDelete
  match processPendingLoop recs table docs with
  | (table2, docs2, true) => (table2, docs2, { numErrors := 1 })
  | (table2, docs2, false) => (table2, docs2, { numDeleted := recs.length })

/-- The hour-of-day of a Unix timestamp under a fixed zone offset (seconds
east of UTC); the model of Go `t.Hour()` in the configured location. -/
def hourOf (tzOffset : Int) (t : Int) : Int :=
  ((t + tzOffset) % 86400) / 3600

/-- `cncdb.TimeIsAtNight` (src/unnamed/part_012 lines 32-34):
`t.Hour() >= 22 || t.Hour() <= 5`. -/
def timeIsAtNight (tzOffset : Int) (t : Int) : Bool :=
  22 ≤ hourOf tzOffset t ∨ hourOf tzOffset t ≤ 5

/-- `reporting.CleanupStats` (src/reporting/common.go). -/
structure CleanupStats where
  numFetched : Nat := 0
  numMerged : Nat := 0
  numErrors : Nat := 0
deriving DecidableEq, Repr

/-- The cleaner configuration fields used by `performCleanup`
(src/cleaner/conf.go): `MinAgeUnvisited()` is the configured number of days
as a duration, here in seconds. -/
structure CleanerConf where
  statusKey : String
  numProcessItemsPerTick : Nat
  minAgeUnvisitedSecs : Int
deriving DecidableEq, Repr

/-- The state visible to the Cleaner: the Redis string keys (for the cursor
under `statusKey`) and the archive table. -/
structure CleanWorld where
  kv : List (String × String)
  archive : ArchTable
  jsonEnv : JsonDecoder

/-- `RedisAdapter.Get` (src/unnamed/part_025): a missing key (`redis.Nil`)
reads as `""`. -/
def rdbGet (kv : List (String × String)) (k : String) : String :=
  (List.lookup k kv).getD ""

/-- `RedisAdapter.Set`. -/
def rdbSet (kv : List (String × String)) (k v : String) : List (String × String) :=
  if (List.lookup k kv).isSome
  then kv.map (fun e => if e.1 = k then (e.1, v) else e)
  else kv ++ [(k, v)]

/-- The Cleaner's cursor codec.  The source formats the timestamp with the
layout `2006-01-02T15:04:05` and parses it back with `time.Parse`; both
directions are bijective on second-precision timestamps, so the model uses
the decimal-seconds rendering. -/
def formatCursor (t : Int) : String := toString t

/-- Decimal-digit value of a character. -/
def charDigit (c : Char) : Option Nat :=
  if 48 ≤ c.toNat ∧ c.toNat ≤ 57 then some (c.toNat - 48) else none

/-- Accumulating decimal parse of a character list. -/
def parseNatAux : List Char → Nat → Option Nat
  | [], acc => some acc
  | c :: cs, acc =>
    match charDigit c with
    | some d => parseNatAux cs (acc * 10 + d)
    | none => none

/-- Parse of the cursor string; `none` models a `time.Parse` failure. -/
def parseCursor (s : String) : Option Int :=
  match s.data with
  | [] => none
  | cs => (parseNatAux cs 0).map Int.ofNat

/-- One step of the Cleaner's per-row loop
(src/cleaner/cleaner.go lines 98-185), for row `item` of the loaded batch:
load the variants, validate payload consistency (error flag + skip on
inconsistency), merge when at least two variants exist, and remove the
surviving row when never accessed and older than `birthLimit`.  A merge
panic propagates (dies); the empty-variants case reaches `variants[0]` and
panics as in the source. -/
def cleanupStep (w : CleanWorld) (stats : CleanupStats) (item : QueryArchRec)
    (birthLimit : Int) (now : Int) : GoResult (CleanWorld × CleanupStats) :=
  let stats := { stats with numFetched := stats.numFetched + 1 }
  let variants := loadRecordsByID w.archive item.id
  match validateQueryInstances w.jsonEnv variants with
  | some _ =>
    match variants with
    | [] => GoResult.panicked "index out of range"
    | v0 :: _ =>
      GoResult.ok ({ w with archive := updateRecordStatus w.archive v0.id (-1) },
        { stats with numErrors := stats.numErrors + 1 })
  | none =>
    if h : 1 < variants.length then
      let v0 := variants.get ⟨0, by omega⟩
      match dedupInArchive [] w.archive variants v0 now with
      | GoResult.panicked m => GoResult.panicked m
      | GoResult.fail _ =>
        GoResult.ok ({ w with archive := updateRecordStatus w.archive v0.id (-1) },
          { stats with numErrors := stats.numErrors + 1 })
      | GoResult.ok (mergedItem, table2) =>
        let stats := { stats with numMerged := stats.numMerged + 1 }
        if mergedItem.numAccess = 0 ∧ mergedItem.created < birthLimit
        then GoResult.ok ({ w with archive := removeRecordsByID table2 v0.id }, stats)
        else GoResult.ok ({ w with archive := table2 }, stats)
    else
      match variants with
      | [] => GoResult.panicked "index out of range"
      | v0 :: _ =>
        if v0.numAccess = 0 ∧ v0.created < birthLimit
        then GoResult.ok ({ w with archive := removeRecordsByID w.archive v0.id }, stats)
        else GoResult.ok (w, stats)

/-- The Cleaner's batch loop. -/
def cleanupLoop (now birthLimit : Int) :
    List QueryArchRec → CleanWorld → CleanupStats → GoResult (CleanWorld × CleanupStats)
  | [], w, stats => GoResult.ok (w, stats)
  | item :: rest, w, stats =>
    match cleanupStep w stats item birthLimit now with
    | GoResult.panicked m => GoResult.panicked m
    | GoResult.fail e => GoResult.fail e
    | GoResult.ok (w2, stats2) => cleanupLoop now birthLimit rest w2 stats2

/-- `cleaner.Service.performCleanup` (src/cleaner/cleaner.go lines 71-192):
read and parse the cursor, load the batch, walk it, then persist
`items[len(items)-1].Created` as the new cursor — an expression the source
evaluates without guarding against an empty batch, so an empty batch is an
index-out-of-range panic. -/
def performCleanup (conf : CleanerConf) (w : CleanWorld) (now : Int) :
    GoResult (CleanWorld × CleanupStats) :=
  let birthLimit := now - conf.minAgeUnvisitedSecs
  let lastDateRaw := rdbGet w.kv conf.statusKey
  match (if lastDateRaw = "" then some 0 else parseCursor lastDateRaw) with
  | none => GoResult.fail "failed to parse last check date in Redis"
  | some lastDate =>
    let items := loadRecordsFromDate w.archive lastDate conf.numProcessItemsPerTick
    match cleanupLoop now birthLimit items w {} with
    | GoResult.panicked m => GoResult.panicked m
    | GoResult.fail e => GoResult.fail e
    | GoResult.ok (w2, stats) =>
      match items.getLast? with
      | none => GoResult.panicked "index out of range"
      | some last =>
        GoResult.ok ({ w2 with kv := rdbSet w2.kv conf.statusKey (formatCursor last.created) },
          stats)

/-- `archiver.CountPerYear`/`YearsStats` (src/archiver/redisconf.go): the
cached per-year archive sizes.  The `encoding/json` marshal/unmarshal of the
cache value is external and round-tripping; the Redis value is therefore
modelled in its decoded form, with `none` standing for a missing key
(`Get` = `""`). -/
structure YearsStatsData where
  years : List (Int × Int)
  lastUpdate : Int
deriving DecidableEq, Repr

/-- The state visible to `YearsStats`: the decoded cache value under
`camus_years_stats`, and the per-year counts the GROUP-BY query would
return. -/
structure YearsWorld where
  cache : Option YearsStatsData
  dbYears : List (Int × Int)
deriving DecidableEq, Repr

/-- `MySQLConcArch.GetArchSizesByYears` (src/cncdb/mysql.go lines 211-232):
outside night hours and without `forceLoad` the store returns
`ErrTooDemandingQuery` before running any SQL; the `Bool` of the result
records whether the SQL query ran. -/
def getArchSizesByYears (w : YearsWorld) (forceLoad : Bool) (tzOffset now : Int) :
    Except String (List (Int × Int)) × Bool :=
  if ¬ forceLoad ∧ ¬ timeIsAtNight tzOffset now
  then (Except.error "too demanding query", false)
  else (Except.ok w.dbYears, true)

/-- `ArchKeeper.YearsStats` (src/archiver/redisconf.go lines 75-112): cache
consultation unless `forceReload`, DB query + cache fill on a cache miss,
`ErrTooDemandingQuery` converted into an empty result.  The second component
reports whether the SQL query ran; the third is the updated state. -/
def yearsStats (w : YearsWorld) (forceReload : Bool) (tzOffset now : Int) :
    Except String (YearsStatsData × Bool × YearsWorld) :=
  let cached := if ¬ forceReload then w.cache else none
  match cached with
  | none =>
    match getArchSizesByYears w forceReload tzOffset now with
    | (Except.error _, queried) =>
      Except.ok ({ years := [], lastUpdate := 0 }, queried, w)
    | (Except.ok data, queried) =>
      let ans : YearsStatsData := { years := data, lastUpdate := now }
      Except.ok (ans, queried, { w with cache := some ans })
  | some c => Except.ok (c, false, w)

/-- UTF-8 encoding of one character, as byte values. -/
def utf8EncodeChar (c : Char) : List Nat :=
  let n := c.toNat
  if n < 128 then [n]
  else if n < 2048 then [192 ||| (n >>> 6), 128 ||| (n &&& 63)]
  else if n < 65536 then
    [224 ||| (n >>> 12), 128 ||| ((n >>> 6) &&& 63), 128 ||| (n &&& 63)]
  else
    [240 ||| (n >>> 18), 128 ||| ((n >>> 12) &&& 63),
     128 ||| ((n >>> 6) &&& 63), 128 ||| (n &&& 63)]

/-- The UTF-8 bytes of a string (Go `[]byte(s)`). -/
def strBytes (s : String) : List Nat :=
  s.data.foldr (fun c acc => utf8EncodeChar c ++ acc) []

/-- 32-bit left rotation on `Nat` values below `2^32`. -/
def rotl32 (k n : Nat) : Nat :=
  ((n <<< k) ||| (n >>> (32 - k))) % 4294967296

/-- SHA-1 round function `f_t`. -/
def sha1F (t b c d : Nat) : Nat :=
  if t < 20 then (b &&& c) ||| ((b ^^^ 4294967295) &&& d)
  else if t < 40 then b ^^^ c ^^^ d
  else if t < 60 then (b &&& c) ||| (b &&& d) ||| (c &&& d)
  else b ^^^ c ^^^ d

/-- SHA-1 round constant `K_t`. -/
def sha1K (t : Nat) : Nat :=
  if t < 20 then 1518500249
  else if t < 40 then 1859775393
  else if t < 60 then 2400959708
  else 3395469782

/-- Big-endian 4-byte words from a byte list. -/
def bytesToWords : List Nat → List Nat
  | b0 :: b1 :: b2 :: b3 :: rest =>
    ((((b0 <<< 8) ||| b1) <<< 8 ||| b2) <<< 8 ||| b3) :: bytesToWords rest
  | _ => []

/-- Extend the 16 schedule words to 80:
`w_t = rotl1 (w_{t-3} xor w_{t-8} xor w_{t-14} xor w_{t-16})`. -/
def extendWords : Nat → List Nat → List Nat
  | 0, ws => ws
  | k + 1, ws =>
    let n := ws.length
    extendWords k (ws ++ [rotl32 1
      ((ws.getD (n - 3) 0) ^^^ (ws.getD (n - 8) 0) ^^^
       (ws.getD (n - 14) 0) ^^^ (ws.getD (n - 16) 0))])

/-- One SHA-1 compression over a 64-byte block. -/
def sha1Compress (h : List Nat) (block : List Nat) : List Nat :=
  let ws := extendWords 64 (bytesToWords block)
  let st := ws.enum.foldl
    (fun (st : Nat × Nat × Nat × Nat × Nat) tw =>
      let a := st.1; let b := st.2.1; let c := st.2.2.1
      let d := st.2.2.2.1; let e := st.2.2.2.2
      let temp := (rotl32 5 a + sha1F tw.1 b c d + e + sha1K tw.1 + tw.2) % 4294967296
      (temp, a, rotl32 30 b, c, d))
    (h.getD 0 0, h.getD 1 0, h.getD 2 0, h.getD 3 0, h.getD 4 0)
  [(h.getD 0 0 + st.1) % 4294967296,
   (h.getD 1 0 + st.2.1) % 4294967296,
   (h.getD 2 0 + st.2.2.1) % 4294967296,
   (h.getD 3 0 + st.2.2.2.1) % 4294967296,
   (h.getD 4 0 + st.2.2.2.2) % 4294967296]

/-- The first `k` 64-byte blocks of a byte list. -/
def takeBlocks : Nat → List Nat → List (List Nat)
  | 0, _ => []
  | k + 1, l => l.take 64 :: takeBlocks k (l.drop 64)

/-- Big-endian 8-byte rendering of the bit length. -/
def be64 (n : Nat) : List Nat :=
  [(n >>> 56) &&& 255, (n >>> 48) &&& 255, (n >>> 40) &&& 255, (n >>> 32) &&& 255,
   (n >>> 24) &&& 255, (n >>> 16) &&& 255, (n >>> 8) &&& 255, n &&& 255]

/-- SHA-1 of a byte list (the `crypto/sha1.Sum` of the Go standard library,
modelled from FIPS 180-4), as its 20 digest bytes. -/
def sha1Digest (msg : List Nat) : List Nat :=
  let r := (msg.length + 1) % 64
  let zeros := if r ≤ 56 then 56 - r else 120 - r
  let padded := msg ++ [128] ++ List.replicate zeros 0 ++ be64 (msg.length * 8)
  let h := (takeBlocks (padded.length / 64) padded).foldl sha1Compress
    [1732584193, 4023233417, 2562383102, 271733878, 3285377520]
  h.foldr (fun w acc =>
    [(w >>> 24) &&& 255, (w >>> 16) &&& 255, (w >>> 8) &&& 255, w &&& 255] ++ acc) []

/-- A lowercase hexadecimal digit. -/
def hexDigitChar (n : Nat) : Char :=
  if n < 10 then Char.ofNat (48 + n) else Char.ofNat (87 + n)

/-- Lowercase hex of a byte list (Go `fmt.Sprintf("%x", …)`). -/
def bytesToHex (bs : List Nat) : String :=
  String.mk (bs.foldr (fun b acc => hexDigitChar (b / 16) :: hexDigitChar (b % 16) :: acc) [])

/-- Go `strings.ToLower`, on the character list (corpus and subcorpus ids
are ASCII, where per-character lowering agrees with Go). -/
def toLowerStr (s : String) : String :=
  String.mk (s.data.map Char.toLower)

/-- `RedisAdapter.mkConcCacheKey` (src/unnamed/part_025 lines 250-252):
`conc_cache:` + the lowercased corpus id. -/
def mkConcCacheKey (corpusId : String) : String :=
  "conc_cache:" ++ toLowerStr corpusId

/-- `RedisAdapter.mkConcCacheField` (src/unnamed/part_025 lines 257-266):
lowercase hex SHA-1 of `join(q, "#") + corpKey + itoa(cutoff)` where
`corpKey` is the lowercased corpus id, suffixed with `/subcorpusID` when a
subcorpus is set. -/
def mkConcCacheField (corpusID subcorpusID : String) (q : List String) (cutoff : Int) :
    String :=
  let corpusIDLw := toLowerStr corpusID
  let corpKey := if subcorpusID ≠ "" then corpusIDLw ++ "/" ++ subcorpusID else corpusIDLw
  let hashInput := String.intercalate "#" q ++ corpKey ++ toString cutoff
  bytesToHex (sha1Digest (strBytes hashInput))

/-- `archiver.ConcCacheRec`. -/
structure ConcCacheRec where
  id : String
  data : String
deriving DecidableEq, Repr

/-- The Redis state visible to `GetConcCacheRawRecord`: the payload keys and
the `conc_cache:*` hashes (key → field → value). -/
structure CacheWorld where
  concStore : List (String × String)
  jsonEnv : JsonDecoder
  hashStore : List (String × List (String × String))

/-- `RedisAdapter.GetConcCacheRawRecord` (src/unnamed/part_025 lines
270-293): fetch and decode the concordance record, derive the cache key from
`GetCorpora()[0]` (a panic when the payload lists no corpora) and the field
from the subcorpus, queries and cutoff 0, then `HGET` that key/field. -/
def getConcCacheRawRecord (w : CacheWorld) (id : String) : GoResult ConcCacheRec :=
  match List.lookup id w.concStore with
  | none => GoResult.fail "failed to get concordance record"
  | some dataRaw =>
    match List.lookup dataRaw w.jsonEnv with
    | none => GoResult.fail "failed to fetch concordance record data"
    | some data =>
      match getCorpora data with
      | [] => GoResult.panicked "index out of range"
      | corpusId :: _ =>
        let subcorpId := getSubcorpus data
        let field := mkConcCacheField corpusId subcorpId (getQuery data) 0
        match (List.lookup (mkConcCacheKey corpusId) w.hashStore).bind
            (fun h => List.lookup field h) with
        | none => GoResult.fail "record not found"
        | some v => GoResult.ok { id := field, data := v }

/-! ### Shared helper lemmas and concrete fixtures -/

set_option maxRecDepth 100000

/-- A successful association-list lookup finds a pair of the list. -/
theorem lookup_some_mem {α β : Type} [BEq α] [LawfulBEq α] {k : α} {v : β} :
    ∀ {l : List (α × β)}, List.lookup k l = some v → (k, v) ∈ l := by
  intro l
  induction l with
  | nil => intro h; simp [List.lookup] at h
  | cons p rest ih =>
    intro h
    rw [List.lookup] at h
    rcases hk : (k == p.1) with _ | _
    · rw [hk] at h
      exact List.mem_cons_of_mem _ (ih h)
    · rw [hk] at h
      have : p = (k, v) := by
        rcases p with ⟨a, b⟩
        have : k = a := by simpa using hk
        cases h
        simp [this]
      simp [this]

/-- A key occurring in an association list makes the lookup succeed. -/
theorem lookup_isSome_of_mem {α β : Type} [BEq α] [LawfulBEq α] {k : α} {v : β} :
    ∀ {l : List (α × β)}, (k, v) ∈ l → ∃ w, List.lookup k l = some w := by
  intro l
  induction l with
  | nil => intro h; simp at h
  | cons p rest ih =>
    intro h
    rw [List.lookup]
    rcases hk : (k == p.1) with _ | _
    · rcases List.mem_cons.mp h with h1 | h2
      · rw [← h1] at hk; simp at hk
      · simpa using ih h2
    · exact ⟨p.2, rfl⟩

/-- Every group built by `groupByData` holds at least one record. -/
theorem groupByData_sound (recs : List QueryArchRec) :
    ∀ acc : List (String × List QueryArchRec), (∀ g ∈ acc, g.2 ≠ []) →
    ∀ g ∈ recs.foldl
      (fun groups r =>
        if (List.lookup r.data groups).isSome
        then groups.map (fun g => if g.1 = r.data then (g.1, g.2 ++ [r]) else g)
        else groups ++ [(r.data, [r])]) acc, g.2 ≠ [] := by
  induction recs with
  | nil => intro acc hacc g hg; exact hacc g hg
  | cons r rest ih =>
    intro acc hacc g hg
    refine ih _ ?_ g hg
    intro g2 hg2
    by_cases hc : (List.lookup r.data acc).isSome
    · simp only [hc, if_true] at hg2
      rcases List.mem_map.mp hg2 with ⟨g3, hg3, hmap⟩
      by_cases he : g3.1 = r.data
      · simp only [he, if_true] at hmap
        rw [← hmap]
        simp
      · simp only [he, if_false] at hmap
        rw [← hmap]
        exact hacc g3 hg3
    · simp only [hc, if_false] at hg2
      rcases List.mem_append.mp hg2 with h1 | h2
      · exact hacc g2 h1
      · simp at h2
        rw [h2]
        simp

/-- `groupByData` of a nonempty record list is nonempty. -/
theorem groupByData_ne_nil (recs : List QueryArchRec) :
    ∀ acc : List (String × List QueryArchRec), acc ≠ [] ∨ recs ≠ [] →
    recs.foldl
      (fun groups r =>
        if (List.lookup r.data groups).isSome
        then groups.map (fun g => if g.1 = r.data then (g.1, g.2 ++ [r]) else g)
        else groups ++ [(r.data, [r])]) acc ≠ [] := by
  induction recs with
  | nil =>
    intro acc h
    rcases h with h | h
    · simpa using h
    · simp at h
  | cons r rest ih =>
    intro acc _
    refine ih _ (Or.inl ?_)
    by_cases hc : (List.lookup r.data acc).isSome
    · simp only [hc, if_true]
      intro hmap
      rcases acc with _ | ⟨p, acc2⟩
      · simp [List.lookup] at hc
      · simp at hmap
    · simp only [hc, if_false]
      simp

/-- The accumulator of the `bestRecKey` fold only grows. -/
theorem pickBest_le (groups : List (String × List QueryArchRec)) :
    ∀ init : String × Nat,
    init.2 ≤ (groups.foldl
      (fun best g => if g.2.length > best.2 then (g.1, g.2.length) else best) init).2 := by
  induction groups with
  | nil => intro init; exact Nat.le_refl _
  | cons g rest ih =>
    intro init
    refine Nat.le_trans ?_ (ih _)
    by_cases hc : g.2.length > init.2
    · simp only [hc, if_true]; exact Nat.le_of_lt hc
    · simp only [hc, if_false]; exact Nat.le_refl _

/-- The `bestRecKey` fold returns its initial value or a key/size pair of
one of the groups. -/
theorem pickBest_cases (groups : List (String × List QueryArchRec)) :
    ∀ init : String × Nat,
    (groups.foldl
      (fun best g => if g.2.length > best.2 then (g.1, g.2.length) else best) init) = init ∨
    ∃ g ∈ groups,
      (groups.foldl
        (fun best g => if g.2.length > best.2 then (g.1, g.2.length) else best) init)
        = (g.1, g.2.length) := by
  induction groups with
  | nil => intro init; exact Or.inl rfl
  | cons g rest ih =>
    intro init
    rcases ih (if g.2.length > init.2 then (g.1, g.2.length) else init) with h | ⟨g2, hg2, h⟩
    · by_cases hc : g.2.length > init.2
      · right
        refine ⟨g, List.mem_cons_self _ _, ?_⟩
        simp only [List.foldl_cons, hc, if_true] at h ⊢
        rw [h]
      · left
        simp only [List.foldl_cons, hc, if_false] at h ⊢
        rw [h]
    · right
      exact ⟨g2, List.mem_cons_of_mem _ hg2, by simpa using h⟩

/-- In `TestAndSolve`, the `queryTest[bestRecKey]` slice handed to
`DeduplicateInArchive` is nonempty whenever the loaded record list is: the
merge-panic branch is unreachable from `TestAndSolve`. -/
theorem bestGroup_ne_nil (recs : List QueryArchRec) (hne : recs ≠ []) :
    (List.lookup (pickBest (groupByData recs)).1 (groupByData recs)).getD [] ≠ [] := by
  have hsound : ∀ g ∈ groupByData recs, g.2 ≠ [] := by
    intro g hg
    exact groupByData_sound recs [] (by intro g hg2; simp at hg2) g hg
  have hnn : groupByData recs ≠ [] := groupByData_ne_nil recs [] (Or.inr hne)
  rcases pickBest_cases (groupByData recs) ("", 0) with h | ⟨g, hg, h⟩
  · -- the fold cannot return the initial value: its second component is
    -- at least the size of the first (nonempty) group
    exfalso
    rcases hgd : groupByData recs with _ | ⟨g0, gs⟩
    · exact hnn hgd
    · have h0 : g0.2 ≠ [] := hsound g0 (by rw [hgd]; exact List.mem_cons_self _ _)
      have hlen : 0 < g0.2.length := List.length_pos.mpr h0
      have hle : g0.2.length ≤ (pickBest (groupByData recs)).2 := by
        rw [hgd]
        unfold pickBest
        simp only [List.foldl_cons]
        have := pickBest_le gs (if g0.2.length > (("", 0) : String × Nat).2
          then (g0.1, g0.2.length) else ("", 0))
        refine Nat.le_trans ?_ this
        simp only [gt_iff_lt]
        rw [if_pos (by simpa using hlen)]
      unfold pickBest at hle
      rw [h] at hle
      have hle0 : g0.2.length ≤ 0 := hle
      omega
  · rcases lookup_isSome_of_mem hg with ⟨w, hw⟩
    unfold pickBest
    rw [h]
    simp only
    rw [hw]
    simp only [Option.getD_some]
    exact hsound (g.1, w) (lookup_some_mem hw)

/-- A concrete archive record used by the witnesses. -/
def sampleRec : QueryArchRec :=
  { id := "X", data := "A", created := 5, numAccess := 2, lastAccess := 7, permanent := 0 }

/-- A Deduplicator whose (single-hash) filter answers positively for every
id: the filter state after `Add` of any id under the constant hash. -/
def sampleDedupPos : Deduplicator := { knownIDs := { hashes := [fun _ => 0], bits := [0] } }

/-- A Deduplicator with an empty filter: every membership test is negative. -/
def sampleDedupNeg : Deduplicator := { knownIDs := { hashes := [fun _ => 0], bits := [] } }

/-- `mergeRecords` on a nonempty slice reaches the fold, not the panic. -/
theorem mergeRecords_isSome (curr : List QueryArchRec) (rec : QueryArchRec) (now : Int)
    (h : curr ≠ []) : ∃ m, mergeRecords curr rec now = some m := by
  cases curr with
  | nil => exact absurd rfl h
  | cons c cs => exact ⟨_, rfl⟩

/-- `DeduplicateInArchive` cannot panic once the merge succeeds. -/
theorem dedupInArchive_not_panic (failingInserts : List String) (table : ArchTable)
    (curr : List QueryArchRec) (rec : QueryArchRec) (now : Int) (m : QueryArchRec)
    (h : mergeRecords curr rec now = some m) :
    (dedupInArchive failingInserts table curr rec now).isPanic = false := by
  unfold dedupInArchive
  rw [h]
  rcases hins : insertRecord failingInserts (removeRecordsByID table rec.id) m with e | t
  <;> simp [hins, GoResult.isPanic]

/-- C9: `MergeRecords` called with an empty slice of existing records
panics ("cannot merge empty slice of ArchRecords", the `none` result of the
embedding) instead of returning an error; on any nonempty slice it returns a
merged record, so a caller of `DeduplicateInArchive` that passes a nonempty
`curr` never reaches the panic — and `TestAndSolve`, which passes the
largest payload group of a nonempty load, never panics at all. -/
theorem C9_merge_empty_panic_callers_safe :
    (∀ (newRec : QueryArchRec) (now : Int), mergeRecords [] newRec now = none) ∧
    (∀ (failingInserts : List String) (table : ArchTable) (curr : List QueryArchRec)
      (rec : QueryArchRec) (now : Int), curr ≠ [] →
      (dedupInArchive failingInserts table curr rec now).isPanic = false) ∧
    (∀ (dd : Deduplicator) (failingInserts : List String) (table : ArchTable)
      (newRec : QueryArchRec) (now : Int),
      (testAndSolve dd failingInserts table newRec now).isPanic = false) := by
  refine ⟨fun newRec now => rfl, ?_, ?_⟩
  · intro failingInserts table curr rec now h
    rcases mergeRecords_isSome curr rec now h with ⟨m, hm⟩
    exact dedupInArchive_not_panic failingInserts table curr rec now m hm
  · intro dd failingInserts table newRec now
    unfold testAndSolve
    by_cases h1 : dd.testRecord newRec.id
    · simp only [h1, not_true_eq_false, if_false]
      by_cases h2 : (loadRecordsByID table newRec.id).isEmpty
      · simp [h2, GoResult.isPanic]
      · simp only [h2, Bool.false_eq_true, if_false]
        have hne : loadRecordsByID table newRec.id ≠ [] := by
          intro hnil
          rw [hnil] at h2
          simp at h2
        have hbest := bestGroup_ne_nil (loadRecordsByID table newRec.id) hne
        rcases mergeRecords_isSome _ newRec now hbest with ⟨m, hm⟩
        have hnp := dedupInArchive_not_panic failingInserts table _ newRec now m hm
        rcases hd : dedupInArchive failingInserts table
            ((List.lookup (pickBest (groupByData (loadRecordsByID table newRec.id))).1
              (groupByData (loadRecordsByID table newRec.id))).getD [])
            newRec now with ⟨b, t⟩ | e | msg
        · simp [hd, GoResult.isPanic]
        · simp [hd, GoResult.isPanic]
        · rw [hd] at hnp
          simp [GoResult.isPanic] at hnp
    · simp [h1, GoResult.isPanic]

/-- Witness for C9 at concrete inputs. -/
theorem C9_witness :
    mergeRecords [] sampleRec 50 = none ∧
    (dedupInArchive [] [sampleRec] [sampleRec] sampleRec 50).isPanic = false ∧
    (testAndSolve sampleDedupPos [] [sampleRec] sampleRec 50).isPanic = false :=
  ⟨C9_merge_empty_panic_callers_safe.1 sampleRec 50,
   C9_merge_empty_panic_callers_safe.2.1 [] [sampleRec] [sampleRec] sampleRec 50 (by decide),
   C9_merge_empty_panic_callers_safe.2.2 sampleDedupPos [] [sampleRec] sampleRec 50⟩

/-- A lookup sees through a value-only update of an association list. -/
theorem lookup_isSome_map_fstPreserving {α β : Type} [BEq α] [LawfulBEq α] (k : α)
    (f : α × β → α × β) (hf : ∀ e, (f e).1 = e.1) :
    ∀ l : List (α × β), (List.lookup k (l.map f)).isSome = (List.lookup k l).isSome := by
  intro l
  induction l with
  | nil => rfl
  | cons p rest ih =>
    simp only [List.map_cons, List.lookup]
    rw [hf p]
    rcases hk : (k == p.1) with _ | _
    · exact ih
    · rfl

/-- A lookup that succeeds on a prefix succeeds on the whole list. -/
theorem lookup_isSome_append_left {α β : Type} [BEq α] {k : α} :
    ∀ {l1 l2 : List (α × β)}, (List.lookup k l1).isSome →
    (List.lookup k (l1 ++ l2)).isSome := by
  intro l1
  induction l1 with
  | nil => intro l2 h; simp [List.lookup] at h
  | cons p rest ih =>
    intro l2 h
    simp only [List.cons_append, List.lookup] at h ⊢
    rcases hk : (k == p.1) with _ | _
    · rw [hk] at h; exact ih h
    · simp

/-- The bumped key is present after `bumpKey`. -/
theorem lookup_bumpKey_self (m : List (VariantKey × Nat)) (k : VariantKey) :
    (List.lookup k (bumpKey m k)).isSome := by
  unfold bumpKey
  by_cases h : (List.lookup k m).isSome
  · rw [if_pos h]
    rw [lookup_isSome_map_fstPreserving k _ (fun e => by by_cases he : e.1 = k <;> simp [he])]
    exact h
  · rw [if_neg h]
    have : (List.lookup k ([(k, 1)] : List (VariantKey × Nat))).isSome := by
      simp [List.lookup]
    induction m with
    | nil => simp [List.lookup]
    | cons p rest ih =>
      simp only [List.cons_append, List.lookup]
      rcases hk : (k == p.1) with _ | _
      · refine ih ?_
        rw [List.lookup] at h
        rw [hk] at h
        exact h
      · simp

/-- `bumpKey` never removes a key. -/
theorem lookup_bumpKey_mono (m : List (VariantKey × Nat)) (k k2 : VariantKey)
    (h : (List.lookup k m).isSome) : (List.lookup k (bumpKey m k2)).isSome := by
  unfold bumpKey
  by_cases h2 : (List.lookup k2 m).isSome
  · rw [if_pos h2]
    rw [lookup_isSome_map_fstPreserving k _ (fun e => by by_cases he : e.1 = k2 <;> simp [he])]
    exact h
  · rw [if_neg h2]
    exact lookup_isSome_append_left h

/-- Keys present in the `queryVariants` map survive the rest of the
`ValidateQueryInstances` loop. -/
theorem validateFold_mono (env : JsonDecoder) (vs : List QueryArchRec) :
    ∀ (st : List (VariantKey × Nat) × Nat) (k : VariantKey),
    (List.lookup k st.1).isSome →
    (List.lookup k ((vs.foldl (validateStep env) st)).1).isSome := by
  induction vs with
  | nil => intro st k h; exact h
  | cons v rest ih =>
    intro st k h
    simp only [List.foldl_cons]
    refine ih _ k ?_
    unfold validateStep
    rcases hf : fetchData env v with e | d
    · simp only
      exact lookup_bumpKey_mono _ k _ (lookup_bumpKey_mono _ k _ h)
    · simp only
      exact lookup_bumpKey_mono _ k _ h

/-- After the loop has seen a variant whose payload fails to decode, the
`queryVariants` map holds both a UUID key and the empty joined-query key. -/
theorem validateFold_failing (env : JsonDecoder) (vs : List QueryArchRec) :
    ∀ st : List (VariantKey × Nat) × Nat,
    (∃ vr ∈ vs, (fetchData env vr).toOption = none) →
    ∃ i, (List.lookup (VariantKey.uuid i) ((vs.foldl (validateStep env) st)).1).isSome ∧
      (List.lookup (VariantKey.qjoin (String.intercalate " " (getQuery [])))
        ((vs.foldl (validateStep env) st)).1).isSome := by
  induction vs with
  | nil => intro st h; rcases h with ⟨vr, hmem, _⟩; simp at hmem
  | cons v rest ih =>
    intro st h
    rcases h with ⟨vr, hmem, hfail⟩
    rcases List.mem_cons.mp hmem with h1 | h2
    · rw [h1] at hfail
      rcases hf : fetchData env v with e | d
      · refine ⟨st.2, ?_, ?_⟩
        · simp only [List.foldl_cons]
          refine validateFold_mono env rest _ _ ?_
          unfold validateStep
          rw [hf]
          simp only
          exact lookup_bumpKey_mono _ _ _ (lookup_bumpKey_self _ _)
        · simp only [List.foldl_cons]
          refine validateFold_mono env rest _ _ ?_
          unfold validateStep
          rw [hf]
          simp only
          exact lookup_bumpKey_self _ _
      · rw [hf] at hfail
        simp [Except.toOption] at hfail
    · simp only [List.foldl_cons]
      exact ih _ ⟨vr, h2, hfail⟩

/-- A list holding two distinct elements has length at least 2. -/
theorem two_mem_le_length {α : Type} {l : List α} {a b : α}
    (ha : a ∈ l) (hb : b ∈ l) (hne : a ≠ b) : 2 ≤ l.length := by
  rcases l with _ | ⟨x, _ | ⟨y, rest⟩⟩
  · simp at ha
  · simp at ha hb
    rw [ha, hb] at hne
    exact absurd rfl hne
  · simp only [List.length_cons]
    omega

/-- C10: `ValidateQueryInstances` returns nil for every variant list with
fewer than two elements; and for every list of two or more variants in
which at least one payload fails to decode as JSON, it returns the
inconsistency error regardless of the decodable variants, because the
undecodable variant is counted both under a fresh UUID key and under its
empty joined-query key. -/
theorem C10_validateQueryInstances :
    (∀ (env : JsonDecoder) (variants : List QueryArchRec), variants.length < 2 →
      validateQueryInstances env variants = none) ∧
    (∀ (env : JsonDecoder) (variants : List QueryArchRec), 2 ≤ variants.length →
      (∃ vr ∈ variants, (fetchData env vr).toOption = none) →
      ∃ n, validateQueryInstances env variants = some n) := by
  constructor
  · intro env variants h
    unfold validateQueryInstances
    rw [if_pos h]
  · intro env variants hlen hfail
    unfold validateQueryInstances
    rw [if_neg (by omega)]
    obtain ⟨i, hu, hq⟩ := validateFold_failing env variants ([], 0) hfail
    rcases Option.isSome_iff_exists.mp hu with ⟨vu, hvu⟩
    rcases Option.isSome_iff_exists.mp hq with ⟨vq, hvq⟩
    have hmemu := lookup_some_mem hvu
    have hmemq := lookup_some_mem hvq
    have h2 : 2 ≤ ((variants.foldl (validateStep env) ([], 0)).1).length :=
      two_mem_le_length hmemu hmemq (by intro h; cases h)
    simp only
    rw [if_pos (by omega)]
    exact ⟨_, rfl⟩

/-- Witness for C10: two variants of id `X`, the first decodable (payload
`"A"` parses to the empty object), the second not (`"B"` is not in the
decoder environment); the validator reports an inconsistency even though
every decodable variant carries the same (empty) query. -/
theorem C10_witness :
    (validateQueryInstances [("A", [])] [sampleRec] = none) ∧
    ∃ n, validateQueryInstances [("A", [])]
      [sampleRec, { sampleRec with data := "B" }] = some n :=
  ⟨C10_validateQueryInstances.1 [("A", [])] [sampleRec] (by decide),
   C10_validateQueryInstances.2 [("A", [])] [sampleRec, { sampleRec with data := "B" }]
     (by decide)
     ⟨{ sampleRec with data := "B" }, by decide, by rfl⟩⟩

/-- C4: `Deduplicator.Add(id)` followed by `TestRecord(id)` returns true
(the Bloom filter has no false negatives); membership is preserved by
further `Add`s; and a restarted Deduplicator that ran `LoadFromDisk` on the
file written by `StoreToDisk` answers `TestRecord(id) = true` for every id
that was a member at the time of the store — in particular for every id
added since the last reset. -/
theorem C4_dedup_add_test_persist :
    (∀ (dd : Deduplicator) (id : String), (dd.add id).testRecord id = true) ∧
    (∀ (dd : Deduplicator) (id id2 : String), dd.testRecord id = true →
      (dd.add id2).testRecord id = true) ∧
    (∀ (dd dd2 : Deduplicator) (id : String), dd.testRecord id = true →
      (dd2.loadFromDisk dd.storeToDisk).testRecord id = true) := by
  refine ⟨?_, ?_, ?_⟩
  · intro dd id
    simp only [Deduplicator.add, Deduplicator.testRecord, BloomFilter.addString,
      BloomFilter.testString, List.all_eq_true]
    intro h hmem
    have : h id ∈ dd.knownIDs.bits ++ dd.knownIDs.hashes.map (fun h => h id) :=
      List.mem_append_right _ (List.mem_map_of_mem _ hmem)
    simpa [List.contains, List.elem_eq_mem] using this
  · intro dd id id2 h
    simp only [Deduplicator.add, Deduplicator.testRecord, BloomFilter.addString,
      BloomFilter.testString, List.all_eq_true] at h ⊢
    intro hf hmem
    have hmem2 := h hf hmem
    simp only [List.contains, List.elem_eq_mem, decide_eq_true_eq] at hmem2 ⊢
    exact List.mem_append_left _ hmem2
  · intro dd dd2 id h
    simpa [Deduplicator.loadFromDisk, Deduplicator.storeToDisk,
      Deduplicator.testRecord] using h

/-- Witness for C4 at concrete inputs: add `"X"` to an empty filter, test,
then persist and reload into a fresh Deduplicator. -/
theorem C4_witness :
    ((sampleDedupNeg.add "X").testRecord "X" = true) ∧
    ((sampleDedupNeg.add "X").add "Y").testRecord "X" = true ∧
    (sampleDedupNeg.loadFromDisk ((sampleDedupNeg.add "X").storeToDisk)).testRecord "X"
      = true :=
  ⟨C4_dedup_add_test_persist.1 sampleDedupNeg "X",
   C4_dedup_add_test_persist.2.1 (sampleDedupNeg.add "X") "X" "Y" (by decide),
   C4_dedup_add_test_persist.2.2 (sampleDedupNeg.add "X") sampleDedupNeg "X" (by decide)⟩

/-- C8: with `force = false` outside night hours (local hour in 22..5) and
no cached value, `YearsStats` returns an empty result and the relational
store is not queried (the `Bool` of the result is the did-query flag);
with `force = true` the query runs and the per-year counts are cached
(under the `camus_years_stats` key, the `cache` field of the model); a
subsequent non-forced call reads the cache without querying. -/
theorem C8_arch_sizes_by_year (w : YearsWorld) (tzOffset now now2 : Int)
    (hday : timeIsAtNight tzOffset now = false) :
    (yearsStats { w with cache := none } false tzOffset now =
      Except.ok ({ years := [], lastUpdate := 0 }, false, { w with cache := none })) ∧
    (yearsStats w true tzOffset now =
      Except.ok ({ years := w.dbYears, lastUpdate := now }, true,
        { w with cache := some { years := w.dbYears, lastUpdate := now } })) ∧
    (∀ c, yearsStats { w with cache := some c } false tzOffset now2 =
      Except.ok (c, false, { w with cache := some c })) := by
  refine ⟨?_, ?_, ?_⟩
  · simp [yearsStats, getArchSizesByYears, hday]
  · simp [yearsStats, getArchSizesByYears]
  · intro c
    simp [yearsStats]

/-- Witness for C8: noon (12:00 UTC) is not at night. -/
theorem C8_witness :
    (yearsStats { cache := none, dbYears := [(2024, 7)] } false 0 43200 =
      Except.ok ({ years := [], lastUpdate := 0 }, false,
        { cache := none, dbYears := [(2024, 7)] })) ∧
    (yearsStats { cache := none, dbYears := [(2024, 7)] } true 0 43200 =
      Except.ok ({ years := [(2024, 7)], lastUpdate := 43200 }, true,
        { cache := some { years := [(2024, 7)], lastUpdate := 43200 },
          dbYears := [(2024, 7)] })) ∧
    (∀ c, yearsStats { cache := some c, dbYears := [(2024, 7)] } false 0 50000 =
      Except.ok (c, false, { cache := some c, dbYears := [(2024, 7)] })) :=
  C8_arch_sizes_by_year { cache := none, dbYears := [(2024, 7)] } 0 43200 50000 (by decide)

/-- The scenario-F world: the concordance record `ABC123` whose payload
lists corpus `syn2020`, query `q[lemma="voda"]` and no subcorpus, and a
`conc_cache:syn2020` hash holding a value at the derived field. -/
def sampleCacheWorld : CacheWorld :=
  { concStore := [("ABC123", "payloadF")]
    jsonEnv := [("payloadF",
      [("corpora", JVal.jarr [JVal.jstr "syn2020"]),
       ("q", JVal.jarr [JVal.jstr "q[lemma=\"voda\"]"])])]
    hashStore := [("conc_cache:syn2020",
      [("cc95ab6053a1cd150c002f103c070345b5cf154c", "cachedata")])] }

/-- C5 counterexample: for corpus id `SYN2020` the code queries the hash
key `conc_cache:syn2020` — not `conc_cache:SYN2020` — and the field is not
the SHA-1 of `join(q, "#") + corpus_id + cutoff`: the source lowercases the
corpus id in both the key and the hash input, which the claim omits. -/
theorem C5_counterexample :
    mkConcCacheKey "SYN2020" = "conc_cache:syn2020" ∧
    ¬ mkConcCacheKey "SYN2020" = "conc_cache:SYN2020" ∧
    mkConcCacheField "SYN2020" "" ["q[lemma=\"voda\"]"] 0 =
      "cc95ab6053a1cd150c002f103c070345b5cf154c" ∧
    bytesToHex (sha1Digest (strBytes ("q[lemma=\"voda\"]" ++ "SYN2020" ++ "0"))) =
      "21ccb2f5f610af3d51459da644ad93096c4afc13" ∧
    ¬ mkConcCacheField "SYN2020" "" ["q[lemma=\"voda\"]"] 0 =
      bytesToHex (sha1Digest (strBytes ("q[lemma=\"voda\"]" ++ "SYN2020" ++ "0"))) := by
  refine ⟨by decide, by decide, by decide, by decide, by decide⟩

/-- C5 amended: the conc-cache lookup queries the key-value hash at key
`conc_cache:<lowercased corpus id>` with a field equal to the lowercase
hexadecimal SHA-1 of `join(q, "#") + corpus_key + cutoff_str`, where
`corpus_key` is the *lowercased* corpus id alone or
`lowercased-corpus/subcorpus` when a subcorpus is set; for corpus
`syn2020`, no subcorpus, `q = ["q[lemma=\"voda\"]"]` and cutoff 0 the field
is SHA-1 of `q[lemma="voda"]syn20200` and the hash `conc_cache:syn2020` is
queried at that field. -/
theorem C5_conc_cache_field_amended :
    (∀ (corpusID subcorpusID : String) (q : List String) (cutoff : Int),
      mkConcCacheField corpusID subcorpusID q cutoff =
        bytesToHex (sha1Digest (strBytes (String.intercalate "#" q ++
          (if subcorpusID = "" then toLowerStr corpusID
           else toLowerStr corpusID ++ "/" ++ subcorpusID) ++ toString cutoff)))) ∧
    mkConcCacheField "syn2020" "" ["q[lemma=\"voda\"]"] 0 =
      "cc95ab6053a1cd150c002f103c070345b5cf154c" ∧
    getConcCacheRawRecord sampleCacheWorld "ABC123" =
      GoResult.ok { id := "cc95ab6053a1cd150c002f103c070345b5cf154c", data := "cachedata" } := by
  refine ⟨?_, by decide, by decide⟩
  intro corpusID subcorpusID q cutoff
  unfold mkConcCacheField
  by_cases h : subcorpusID = "" <;> simp [h]

/-- The merged record as the spec formulas describe it, amended to what the
source computes: `data` is the *new* record's payload (`MergeRecords` starts
from `newRec` and never touches `Data`), and `last_access` is the maximum of
`now` and the existing accesses (`MergeRecords` overwrites
`newRec.LastAccess` with `time.Now()` before folding). -/
def mergedRecordSpec (curr : List QueryArchRec) (rec : QueryArchRec) (now : Int) :
    QueryArchRec :=
  { id := rec.id
    data := rec.data
    created := ((curr.map QueryArchRec.created).filter (fun c => ¬ c = 0)).foldl min rec.created
    numAccess := rec.numAccess + 1 + (curr.map QueryArchRec.numAccess).sum
    lastAccess := (curr.map QueryArchRec.lastAccess).foldl max now
    permanent := (curr.map QueryArchRec.permanent).foldl max rec.permanent }

theorem mergeFold_id (curr : List QueryArchRec) :
    ∀ a : QueryArchRec, (curr.foldl mergeStep a).id = a.id := by
  induction curr with
  | nil => intro a; rfl
  | cons r rest ih => intro a; simpa using ih (mergeStep a r)

theorem mergeFold_data (curr : List QueryArchRec) :
    ∀ a : QueryArchRec, (curr.foldl mergeStep a).data = a.data := by
  induction curr with
  | nil => intro a; rfl
  | cons r rest ih => intro a; simpa using ih (mergeStep a r)

theorem mergeFold_numAccess (curr : List QueryArchRec) :
    ∀ a : QueryArchRec, (curr.foldl mergeStep a).numAccess =
      a.numAccess + (curr.map QueryArchRec.numAccess).sum := by
  induction curr with
  | nil => intro a; simp
  | cons r rest ih =>
    intro a
    simp only [List.foldl_cons, List.map_cons, List.sum_cons]
    rw [ih (mergeStep a r)]
    simp [mergeStep]
    omega

theorem mergeFold_created (curr : List QueryArchRec) :
    ∀ a : QueryArchRec, (curr.foldl mergeStep a).created =
      ((curr.map QueryArchRec.created).filter (fun c => ¬ c = 0)).foldl min a.created := by
  induction curr with
  | nil => intro a; simp
  | cons r rest ih =>
    intro a
    simp only [List.foldl_cons, List.map_cons, List.filter_cons]
    rw [ih (mergeStep a r)]
    by_cases hz : r.created = 0
    · simp only [hz]
      norm_num
      congr 1
      simp [mergeStep, hz]
    · simp only [hz]
      norm_num
      congr 1
      simp only [mergeStep]
      by_cases hlt : r.created < a.created
      · rw [if_pos ⟨hlt, hz⟩]
        omega
      · rw [if_neg (by tauto)]
        omega

theorem mergeFold_lastAccess (curr : List QueryArchRec) :
    ∀ a : QueryArchRec, (curr.foldl mergeStep a).lastAccess =
      (curr.map QueryArchRec.lastAccess).foldl max a.lastAccess := by
  induction curr with
  | nil => intro a; simp
  | cons r rest ih =>
    intro a
    simp only [List.foldl_cons, List.map_cons]
    rw [ih (mergeStep a r)]
    congr 1
    simp only [mergeStep]
    by_cases hlt : r.lastAccess > a.lastAccess
    · rw [if_pos hlt]; omega
    · rw [if_neg hlt]; omega

theorem mergeFold_permanent (curr : List QueryArchRec) :
    ∀ a : QueryArchRec, (curr.foldl mergeStep a).permanent =
      (curr.map QueryArchRec.permanent).foldl max a.permanent := by
  induction curr with
  | nil => intro a; simp
  | cons r rest ih =>
    intro a
    simp only [List.foldl_cons, List.map_cons]
    rw [ih (mergeStep a r)]
    congr 1
    simp only [mergeStep]
    by_cases hlt : r.permanent > a.permanent
    · rw [if_pos hlt]; omega
    · rw [if_neg hlt]; omega

/-- On a nonempty `curr`, `MergeRecords` computes exactly the amended field
formulas. -/
theorem mergeRecords_eq_spec (curr : List QueryArchRec) (rec : QueryArchRec) (now : Int)
    (h : curr ≠ []) : mergeRecords curr rec now = some (mergedRecordSpec curr rec now) := by
  cases curr with
  | nil => exact absurd rfl h
  | cons c cs =>
    show some _ = some _
    congr 1
    have hid := mergeFold_id (c :: cs)
      { rec with numAccess := rec.numAccess + 1, lastAccess := now }
    have hdata := mergeFold_data (c :: cs)
      { rec with numAccess := rec.numAccess + 1, lastAccess := now }
    have hna := mergeFold_numAccess (c :: cs)
      { rec with numAccess := rec.numAccess + 1, lastAccess := now }
    have hcr := mergeFold_created (c :: cs)
      { rec with numAccess := rec.numAccess + 1, lastAccess := now }
    have hla := mergeFold_lastAccess (c :: cs)
      { rec with numAccess := rec.numAccess + 1, lastAccess := now }
    have hp := mergeFold_permanent (c :: cs)
      { rec with numAccess := rec.numAccess + 1, lastAccess := now }
    rcases hfold : (c :: cs).foldl mergeStep
      { rec with numAccess := rec.numAccess + 1, lastAccess := now } with
      ⟨i, d, cr, na, la, p⟩
    rw [hfold] at hid hdata hna hcr hla hp
    unfold mergedRecordSpec
    simp only at hid hdata hna hcr hla hp
    rw [hid, hdata, hna, hcr, hla, hp]

/-- C1 amended: for every nonempty list of existing rows and every new
record whose insert the store accepts, `DeduplicateInArchive` removes all
rows with the id and inserts exactly one merged row with
`num_access = new.num_access + 1 + Σ curr.num_access`,
`created = min(new.created, min non-zero curr.created)`,
`last_access = max(now, max curr.last_access)` (the new record's own
`last_access` is overwritten by the current time, not included in the max),
`permanent = max over all inputs`, and `data = new.data` (the incoming
payload — not the canonical payload of the largest existing group). -/
theorem C1_dedup_merge_amended (failingInserts : List String) (table : ArchTable)
    (curr : List QueryArchRec) (rec : QueryArchRec) (now : Int)
    (h1 : curr ≠ []) (h2 : rec.id ∉ failingInserts) :
    dedupInArchive failingInserts table curr rec now =
      GoResult.ok (mergedRecordSpec curr rec now,
        removeRecordsByID table rec.id ++ [mergedRecordSpec curr rec now]) := by
  unfold dedupInArchive
  rw [mergeRecords_eq_spec curr rec now h1]
  have hins : insertRecord failingInserts (removeRecordsByID table rec.id)
      (mergedRecordSpec curr rec now) =
      Except.ok (removeRecordsByID table rec.id ++ [mergedRecordSpec curr rec now]) := by
    unfold insertRecord
    rw [if_neg (by simpa [mergedRecordSpec] using h2)]
  simp only [hins]

/-- Witness for C1's amended theorem at a concrete input. -/
theorem C1_witness :
    dedupInArchive [] [sampleRec] [sampleRec]
      { id := "X", data := "B", created := 10, numAccess := 0,
        lastAccess := 100, permanent := 0 } 50 =
      GoResult.ok (mergedRecordSpec [sampleRec]
        { id := "X", data := "B", created := 10, numAccess := 0,
          lastAccess := 100, permanent := 0 } 50,
        removeRecordsByID [sampleRec] "X" ++
          [mergedRecordSpec [sampleRec]
            { id := "X", data := "B", created := 10, numAccess := 0,
              lastAccess := 100, permanent := 0 } 50]) :=
  C1_dedup_merge_amended [] [sampleRec] [sampleRec]
    { id := "X", data := "B", created := 10, numAccess := 0,
      lastAccess := 100, permanent := 0 } 50 (by decide) (by decide)

/-- C1 counterexample: with one existing row (payload `"A"`, last access 7)
and a new record (payload `"B"`, last access 100) at `now = 50`, the merge
performed by `TestAndSolve` keeps the *new* payload `"B"` — not the
canonical payload `"A"` of the (only, hence largest) group of existing
rows — and sets `last_access = 50`, not
`max(new.last_access, existing.last_access, now) = 100`: two of the field
equations of the claim fail on the code. -/
theorem C1_counterexample :
    testAndSolve sampleDedupPos [] [sampleRec]
      { id := "X", data := "B", created := 10, numAccess := 0,
        lastAccess := 100, permanent := 0 } 50 =
      GoResult.ok (true,
        [{ id := "X", data := "B", created := 5, numAccess := 3,
           lastAccess := 50, permanent := 0 }]) ∧
    ¬ ("B" : String) = sampleRec.data ∧
    ¬ (50 : Int) = max (max 100 sampleRec.lastAccess) 50 := by
  refine ⟨by decide, by decide, by decide⟩

theorem mem_insertLe {α : Type} {le : α → α → Bool} {x a : α} :
    ∀ {l : List α}, a ∈ insertLe le x l → a = x ∨ a ∈ l := by
  intro l
  induction l with
  | nil => intro h; simp [insertLe] at h; exact Or.inl h
  | cons y ys ih =>
    intro h
    unfold insertLe at h
    by_cases hc : le x y
    · rw [if_pos hc] at h
      rcases List.mem_cons.mp h with h1 | h2
      · exact Or.inl h1
      · exact Or.inr h2
    · rw [if_neg hc] at h
      rcases List.mem_cons.mp h with h1 | h2
      · exact Or.inr (by simp [h1])
      · rcases ih h2 with h3 | h4
        · exact Or.inl h3
        · exact Or.inr (List.mem_cons_of_mem _ h4)

theorem mem_sortLe {α : Type} {le : α → α → Bool} {a : α} :
    ∀ {l : List α}, a ∈ sortLe le l → a ∈ l := by
  intro l
  induction l with
  | nil => intro h; simp [sortLe] at h
  | cons y ys ih =>
    intro h
    unfold sortLe at h
    rcases mem_insertLe h with h1 | h2
    · simp [h1]
    · exact List.mem_cons_of_mem _ (ih h2)

/-- Every due triple of the mark phase comes from an unnamed row of the
table with exactly that `(user_id, created, query_id)`. -/
theorem markDueTriples_from_unnamed (table : HistTable) (numPreserve : Nat)
    (t : Int × Int × String) (ht : t ∈ markDueTriples table numPreserve) :
    ∃ r2 ∈ table, r2.name = none ∧ r2.userId = t.1 ∧ r2.created = t.2.1 ∧
      r2.queryId = t.2.2 := by
  unfold markDueTriples at ht
  rcases List.mem_flatMap.mp ht with ⟨u, _, hmap⟩
  rcases List.mem_map.mp hmap with ⟨r2, hdrop, htr⟩
  have h1 : r2 ∈ sortLe (fun a b => b.created ≤ a.created)
      ((table.filter (fun r => r.name = none)).filter (fun r => r.userId = u)) :=
    List.mem_of_mem_drop hdrop
  have h2 := mem_sortLe h1
  have h3 := List.mem_of_mem_filter h2
  refine ⟨r2, List.mem_of_mem_filter h3, ?_, ?_, ?_, ?_⟩
  · have := List.of_mem_filter h3
    simpa using this
  · rw [← htr]
  · rw [← htr]
  · rw [← htr]

/-- A named row survives `RemoveQueryHistory` (the `AND name IS NULL`
guard). -/
theorem removeQueryHistory_preserves_named {table : HistTable} {c u : Int} {q : String}
    {r : HistRow} (hr : r ∈ table) (hname : ¬ r.name = none) :
    ∀ t2, removeQueryHistory table c u q = GoResult.ok t2 → r ∈ t2 := by
  intro t2 h
  unfold removeQueryHistory at h
  by_cases hc : (table.filter (fun r =>
      ¬ (r.created = c ∧ r.userId = u ∧ r.queryId = q ∧ r.name = none))).length
      = table.length
  · rw [if_pos hc] at h
    cases h
  · rw [if_neg hc] at h
    cases h
    refine List.mem_filter.mpr ⟨hr, ?_⟩
    simp only [decide_eq_true_eq]
    intro hmatch
    exact hname hmatch.2.2.2

/-- A named row survives the whole per-record deletion loop of the delete
phase. -/
theorem processPendingLoop_preserves_named (recs : List HistoryRecord) :
    ∀ (table : HistTable) (docs : List String) (r : HistRow), r ∈ table →
    ¬ r.name = none → r ∈ (processPendingLoop recs table docs).1 := by
  induction recs with
  | nil => intro table docs r hr _; exact hr
  | cons rec rest ih =>
    intro table docs r hr hname
    unfold processPendingLoop
    rcases hrem : removeQueryHistory table rec.created rec.userId rec.queryId with
      t2 | e | m
    · exact ih _ _ r (removeQueryHistory_preserves_named hr hname t2 hrem) hname
    · exact hr
    · exact hr

/-- C7 amended: the GC mark phase changes only `pending_deletion_from`
(never the name), and it touches a *named* row only when that row shares
its `(user_id, created, query_id)` triple with an unnamed beyond-cap row
(the UPDATE joins on the triple without re-checking `name`); the delete
phase never removes a named row (`AND name IS NULL`), so named entries are
never deleted by mark or delete. -/
theorem C7_named_retention_amended :
    (∀ (table : HistTable) (numPreserve : Nat) (now : Int) (r : HistRow),
      (markRow table numPreserve now r).userId = r.userId ∧
      (markRow table numPreserve now r).queryId = r.queryId ∧
      (markRow table numPreserve now r).created = r.created ∧
      (markRow table numPreserve now r).name = r.name) ∧
    (∀ (table : HistTable) (numPreserve : Nat) (now : Int) (r : HistRow),
      ¬ markRow table numPreserve now r = r →
      ∃ r2 ∈ table, r2.name = none ∧ r2.userId = r.userId ∧ r2.created = r.created ∧
        r2.queryId = r.queryId) ∧
    (∀ (maxDel : Nat) (table : HistTable) (docs : List String) (r : HistRow),
      r ∈ table → ¬ r.name = none →
      r ∈ (processDeletionPendingRecords maxDel table docs).1) := by
  refine ⟨?_, ?_, ?_⟩
  · intro table numPreserve now r
    unfold markRow
    by_cases hc : (markDueTriples table numPreserve).any
        (fun t => r.userId = t.1 ∧ r.created = t.2.1 ∧ r.queryId = t.2.2)
    · rw [if_pos hc]; exact ⟨rfl, rfl, rfl, rfl⟩
    · rw [if_neg hc]; exact ⟨rfl, rfl, rfl, rfl⟩
  · intro table numPreserve now r hchanged
    unfold markRow at hchanged
    by_cases hc : (markDueTriples table numPreserve).any
        (fun t => r.userId = t.1 ∧ r.created = t.2.1 ∧ r.queryId = t.2.2)
    · rcases List.any_eq_true.mp hc with ⟨t, ht, hmatch⟩
      simp only [decide_eq_true_eq] at hmatch
      rcases markDueTriples_from_unnamed table numPreserve t ht with
        ⟨r2, hr2, hn, hu, hcr, hq⟩
      exact ⟨r2, hr2, hn, by rw [hu, ← hmatch.1], by rw [hcr, ← hmatch.2.1],
        by rw [hq, ← hmatch.2.2]⟩
    · rw [if_neg hc] at hchanged
      exact absurd rfl hchanged
  · intro maxDel table docs r hr hname
    unfold processDeletionPendingRecords
    have := processPendingLoop_preserves_named
      (getPendingDeletionHistory table maxDel) table docs r hr hname
    rcases hloop : processPendingLoop (getPendingDeletionHistory table maxDel) table docs
      with ⟨t2, d2, err⟩
    rw [hloop] at this
    cases err
    · simp only [hloop]; exact this
    · simp only [hloop]; exact this

/-- The three-row table of the C7 counterexample: user 1 has two unnamed
entries (created 10 and 5) and one *named* entry that shares
`(user_id, created, query_id)` with the older unnamed one. -/
def histTableC7 : HistTable :=
  [{ userId := 1, queryId := "qX", created := 10, name := none, pendingFrom := none },
   { userId := 1, queryId := "q5", created := 5, name := none, pendingFrom := none },
   { userId := 1, queryId := "q5", created := 5, name := some "saved", pendingFrom := none }]

/-- C7 counterexample: with cap 1, the ranked subquery marks the older
unnamed row `(1, 5, q5)`, and the UPDATE's join on the triple also sets
`pending_deletion_from` on the *named* row sharing that triple — a named
entry is marked for deletion, contrary to the claim that the mark update
only targets rows with `name IS NULL`. -/
theorem C7_counterexample :
    (markOldQueryHistory histTableC7 1 1000).1 =
      [{ userId := 1, queryId := "qX", created := 10, name := none, pendingFrom := none },
       { userId := 1, queryId := "q5", created := 5, name := none,
         pendingFrom := some 1000 },
       { userId := 1, queryId := "q5", created := 5, name := some "saved",
         pendingFrom := some 1000 }] ∧
    ¬ ({ userId := 1, queryId := "q5", created := 5, name := some "saved",
         pendingFrom := none } : HistRow).name = none := by
  refine ⟨by decide, by decide⟩

/-- Witness for C7's amended theorem at the counterexample table. -/
theorem C7_witness :
    ((markRow histTableC7 1 1000
        { userId := 1, queryId := "q5", created := 5, name := some "saved",
          pendingFrom := none }).name = some "saved") ∧
    (∃ r2 ∈ histTableC7, r2.name = none ∧ r2.userId = 1 ∧ r2.created = 5 ∧
      r2.queryId = "q5") ∧
    ({ userId := 1, queryId := "q5", created := 5, name := some "saved",
       pendingFrom := none } : HistRow) ∈
      (processDeletionPendingRecords 10 histTableC7 ["1/5/q5"]).1 :=
  ⟨(C7_named_retention_amended.1 histTableC7 1 1000
      { userId := 1, queryId := "q5", created := 5, name := some "saved",
        pendingFrom := none }).2.2.2,
   C7_named_retention_amended.2.1 histTableC7 1 1000
     { userId := 1, queryId := "q5", created := 5, name := some "saved",
       pendingFrom := none } (by decide),
   C7_named_retention_amended.2.2 10 histTableC7 ["1/5/q5"]
     { userId := 1, queryId := "q5", created := 5, name := some "saved",
       pendingFrom := none } (by decide) (by decide)⟩

/-- The pending-deletion batch of the C2 failing input: an unnamed entry
(pending since 50) followed by a *named* entry that carries a
`pending_deletion_from` (a user named it after the mark phase flagged it,
or it was marked through a shared triple as in the C7 counterexample). -/
def histTableC2 : HistTable :=
  [{ userId := 1, queryId := "q1", created := 100, name := none, pendingFrom := some 50 },
   { userId := 2, queryId := "q2", created := 200, name := some "saved",
     pendingFrom := some 60 }]

/-- The full-text index for the C2 failing input: one document per row. -/
def histDocsC2 : List String := ["1/100/q1", "2/200/q2"]

/-- C2: the delete phase at the failing input.  The first record is deleted
from the relational table (on the autocommit pool connection — the source
runs the DELETE on `ops.db`, not on the received `tx`) and from the index;
the second record's DELETE matches no row (its `name` is no longer NULL),
so the loop errors and "rolls back" — yet the relational row count and the
index document count have each decreased by one, not by zero.  The second
conjunct shows the success path for comparison: both counts drop by the
same number. -/
theorem C2_rollback_restores_nothing :
    processDeletionPendingRecords 10 histTableC2 histDocsC2 =
      ([{ userId := 2, queryId := "q2", created := 200, name := some "saved",
          pendingFrom := some 60 }], ["2/200/q2"],
        { numDeleted := 0, numErrors := 1 }) ∧
    histTableC2.length = 2 ∧ histDocsC2.length = 2 ∧
    processDeletionPendingRecords 10
      [{ userId := 1, queryId := "q1", created := 100, name := none,
         pendingFrom := some 50 }] ["1/100/q1"] =
      ([], [], { numDeleted := 1, numErrors := 0 }) := by
  refine ⟨by decide, by decide, by decide, by decide⟩

/-- The Redis string keys of the Cleaner outcome, when the tick returned
normally. -/
def cleanupResultKv : GoResult (CleanWorld × CleanupStats) → Option (List (String × String))
  | GoResult.ok (w, _) => some w.kv
  | _ => none

/-- Cleaner configuration of the C6 evaluation. -/
def cleanConfC6 : CleanerConf :=
  { statusKey := "camus_archive_cleanup_status", numProcessItemsPerTick := 10,
    minAgeUnvisitedSecs := 31536000 }

/-- C6 failing input: the persisted cursor is `1000` and the only archive
row was created at 500, so the loaded batch is empty. -/
def cleanWorldC6 : CleanWorld :=
  { kv := [("camus_archive_cleanup_status", "1000")]
    archive := [{ id := "OLD", data := "A", created := 500, numAccess := 0,
                  lastAccess := 0, permanent := 0 }]
    jsonEnv := [] }

/-- A companion state whose batch is nonempty: one row created at 1500,
once accessed. -/
def cleanWorldC6b : CleanWorld :=
  { kv := [("camus_archive_cleanup_status", "1000")]
    archive := [{ id := "NEW", data := "A", created := 1500, numAccess := 1,
                  lastAccess := 0, permanent := 0 }]
    jsonEnv := [] }

/-- C6: a Cleaner tick whose loaded batch is empty evaluates
`items[len(items)-1]` and panics (index out of range) instead of being a
no-op; a tick with a nonempty batch returns normally and advances the
cursor to the `created` of the last processed row (1500 ≥ 1000, so the
cursor did not move backwards). -/
theorem C6_empty_batch_faults :
    (performCleanup cleanConfC6 cleanWorldC6 2000).isPanic = true ∧
    cleanupResultKv (performCleanup cleanConfC6 cleanWorldC6b 2000) =
      some [("camus_archive_cleanup_status", "1500")] := by
  refine ⟨by decide, by decide⟩

/-- The tick counters of an ArchKeeper outcome, when the tick returned
normally. -/
def checkResultStats : GoResult CheckOutcome → Option OpStats
  | GoResult.ok o => some o.stats
  | _ => none

/-- The remaining queue of an ArchKeeper outcome. -/
def checkResultQueue : GoResult CheckOutcome → Option (List String)
  | GoResult.ok o => some o.world.queue
  | _ => none

/-- The archive table of an ArchKeeper outcome. -/
def checkResultArchive : GoResult CheckOutcome → Option ArchTable
  | GoResult.ok o => some o.world.archive
  | _ => none

/-- The failure queue of an ArchKeeper outcome. -/
def checkResultFailedQueue : GoResult CheckOutcome → Option (List QueueRecord)
  | GoResult.ok o => some o.world.failedQueue
  | _ => none

/-- The stats-stream messages of an ArchKeeper outcome. -/
def checkResultToStats : GoResult CheckOutcome → Option (List CorpBoundRawRecord)
  | GoResult.ok o => some o.toStats
  | _ => none

/-- C3 failing input: one legacy (implicit archive) queue entry `RECX`
whose payload exists in Redis but whose archive INSERT errors
(`failingInserts`); the Deduplicator is empty, so the implicit path goes to
the insert. -/
def archWorldC3 : ArchWorld :=
  { queue := ["RECX"]
    concStore := [("RECX", "payloadX")]
    jsonEnv := [("payloadX", [("corpora", JVal.jarr [JVal.jstr "corpC"])])]
    archive := []
    failingInserts := ["RECX"]
    dedup := sampleDedupNeg
    dbCorpSizes := [("corpC", 100)] }

/-- C3: evaluating `performCheck` at the failing input.  The tick succeeds
and shortens the queue by one entry (within the chunk bound), the failing
entry lands on the failure queue — but the tick's counters report
`num_inserted = 1` and `num_errors = 0` while the archive grew by zero
rows: the insert failure did not increment the error counter, and
`num_inserted` counted an entry whose insert added no row, so
`archive growth = num_inserted + num_merged_net` fails. -/
theorem C3_insert_failure_miscounted :
    checkResultStats (performCheck archWorldC3 10 777) =
      some { numInserted := 1, numMerged := 0, numErrors := 0, numFetched := 1 } ∧
    checkResultQueue (performCheck archWorldC3 10 777) = some [] ∧
    checkResultArchive (performCheck archWorldC3 10 777) = some [] ∧
    checkResultFailedQueue (performCheck archWorldC3 10 777) =
      some [{ type := "", key := "RECX", explicit := false, userId := 0, created := 0,
              name := "" }] ∧
    checkResultToStats (performCheck archWorldC3 10 777) =
      some [{ rawRecord := { id := "RECX", data := "payloadX", created := 777,
                             numAccess := 0, lastAccess := 0, permanent := 0 },
              corpname := "corpC", corpusSize := 100 }] ∧
    archWorldC3.queue.length = 1 := by
  refine ⟨by decide, by decide, by decide, by decide, by decide, by decide⟩

end Camus
